import Mathlib

/-! pgToSqlite: schema translation and row transfer.

A shallow embedding of `src/pgToSqlite.cpp`.  Text (`std::string`, C strings
returned by the client library) is a `List Char`; the calls made to the two
databases are recorded as a list of `Event`s, and what the databases answer is
an explicit input of the model.
-/

namespace PgToSqlite

/-! ## String primitives -/

/-- Position of the first occurrence of `pat` in `s`
(`std::string::find`, `none` standing for `npos`). -/
def find : List Char → List Char → Option Nat
  | [], pat => if pat.isPrefixOf [] then some 0 else none
  | c :: cs, pat =>
    if pat.isPrefixOf (c :: cs) then some 0
    else (find cs pat).map (· + 1)

/-- Position of the last occurrence of the character `ch` in `s`
(`strrchr`, `none` standing for the null pointer). -/
def strrchr : List Char → Char → Option Nat
  | [], _ => none
  | c :: cs, ch =>
    match strrchr cs ch with
    | some p => some (p + 1)
    | none => if c = ch then some 0 else none

/-- The test `s.find(pat) != std::string::npos`. -/
def contains (s pat : List Char) : Bool := (find s pat).isSome

/-- The call `std::replace(s.begin(), s.end(), a, b)`. -/
def replaceChar (s : List Char) (a b : Char) : List Char :=
  s.map (fun c => if c = a then b else c)

/-! ## Type and default mapping (lines 402-455) -/

/-- One row of the catalog query `(column_name, column_default, data_type)`. -/
structure ColumnRow where
  colName : List Char
  colDefault : List Char
  colType : List Char
deriving DecidableEq, Repr

/-- Lines 409-415: hyphens of the type name are replaced by blanks. -/
def normalizeType (colType : List Char) : List Char :=
  if contains colType "-".toList then replaceChar colType '-' ' ' else colType

/-- Lines 421-425: text of the auto-increment trigger. -/
def triggerQuery (tableName colName : List Char) : List Char :=
  let q0 := "CREATE TRIGGER ".toList ++ tableName ++ "_".toList ++ colName
    ++ "_autoincrement AFTER INSERT ON ".toList ++ tableName ++ "".toList
  let q1 := q0 ++ (" FOR EACH ROW when new.".toList ++ colName ++ " is NULL ".toList)
  let q2 := q1 ++ " BEGIN ".toList
  let q3 := q2 ++ (" UPDATE ".toList ++ tableName ++ " SET ".toList ++ colName
    ++ " = (SELECT IFNULL(MAX(".toList ++ colName ++ ")+1,0) FROM ".toList ++ tableName
    ++ ") WHERE rowid = new.rowid;".toList)
  q3 ++ " END; ".toList

/-- Lines 433-447: the chain of rewrites applied to a default that is not a
sequence-generator call. -/
def rewriteDefault (colDefault : List Char) : List Char :=
  if colDefault = "now()".toList then "CURRENT_TIMESTAMP".toList
  else if find colDefault "'infinity'::timestamp".toList = some 0 then
    "'9999-12-31 12:00:00'".toList
  else if find colDefault "'-infinity'::timestamp".toList = some 0 then
    "'0000-00-00 12:00:00'".toList
  else if contains colDefault "'Infinity'".toList then "9e999".toList
  else if contains colDefault "'-Infinity'".toList then "-9e999".toList
  else
    match find colDefault "::".toList with
    | some p => colDefault.take p
    | none => colDefault

/-- Lines 417-449: the block that settles the default of a column and the
triggers of the table: it returns the new value of `colDefault` and the new
value of `sqliteTriggers`. -/
def defaultBlock (tableName colName colType colDefault : List Char)
    (sqliteTriggers : List (List Char)) : List Char × List (List Char) :=
  if contains colDefault "nextval(".toList && contains colDefault "seq'::regclass)".toList then
    let triggers :=
      if colType = "integer".toList then sqliteTriggers ++ [triggerQuery tableName colName]
      else sqliteTriggers
    ([], triggers)
  else
    (rewriteDefault colDefault, sqliteTriggers)

/-! ## The column loop (lines 395-490) -/

/-- What the column loop of one table accumulates: the two statements under
construction, the projection of the data query, the triggers, and the three
`std::set<int>` of column positions. -/
structure ColumnLoopState where
  sqlite_create_query : List Char
  sqlite_insert_query : List Char
  colNamesForPqSelect : List (List Char)
  sqliteTriggers : List (List Char)
  largeObjectColumns : List Nat
  timeZoneColumns : List Nat
  timeStampColumns : List Nat
deriving DecidableEq, Repr

/-- Lines 364-365: the state the column loop starts from. -/
def initialColumnState (tableName : List Char) : ColumnLoopState where
  sqlite_create_query := "CREATE TABLE ".toList ++ tableName ++ " (".toList
  sqlite_insert_query := "INSERT INTO ".toList ++ tableName ++ " VALUES (".toList
  colNamesForPqSelect := []
  sqliteTriggers := []
  largeObjectColumns := []
  timeZoneColumns := []
  timeStampColumns := []

/-- Line 476: the projection of a column "without time zone". -/
def zoneProjection (pgTimezone colName : List Char) : List Char :=
  colName ++ (" at time zone '".toList ++ pgTimezone ++ "'".toList)

/-- Lines 402-489: the body of the column loop for the catalog row number
`row` out of `rowCount`. -/
def columnStep (tableName pgTimezone : List Char) (rowCount row : Nat)
    (st : ColumnLoopState) (r : ColumnRow) : ColumnLoopState :=
  let colName := r.colName
  let create1 := st.sqlite_create_query ++ colName ++ " ".toList
  let colType := normalizeType r.colType
  let block := defaultBlock tableName colName colType r.colDefault st.sqliteTriggers
  let colDefault := block.1
  let triggers := block.2
  let create2 := create1 ++ colType
  let create3 :=
    if colDefault.length > 0 then create2 ++ " default ".toList ++ colDefault else create2
  let lo := if colType = "oid".toList then st.largeObjectColumns.insert row
    else st.largeObjectColumns
  let tz1 := if contains colType "with time zone".toList then st.timeZoneColumns.insert row
    else st.timeZoneColumns
  let ts := if contains colType "timestamp".toList then st.timeStampColumns.insert row
    else st.timeStampColumns
  let withoutZone := contains colType "without time zone".toList
  let colName2 := if withoutZone then zoneProjection pgTimezone colName else colName
  let tz2 := if withoutZone then tz1.insert row else tz1
  let names := st.colNamesForPqSelect ++ [colName2]
  let insert1 := st.sqlite_insert_query ++ "?".toList
  let last := row = rowCount - 1
  { sqlite_create_query := if last then create3 else create3 ++ ", ".toList
    sqlite_insert_query := if last then insert1 else insert1 ++ ", ".toList
    colNamesForPqSelect := names
    sqliteTriggers := triggers
    largeObjectColumns := lo
    timeZoneColumns := tz2
    timeStampColumns := ts }

/-- Lines 395-490: the column loop, from catalog row number `row` on. -/
def columnLoopFrom (tableName pgTimezone : List Char) (rowCount : Nat) :
    Nat → ColumnLoopState → List ColumnRow → ColumnLoopState
  | _, st, [] => st
  | row, st, r :: rs =>
    columnLoopFrom tableName pgTimezone rowCount (row + 1)
      (columnStep tableName pgTimezone rowCount row st r) rs

/-- Lines 364-490: the column loop over all catalog rows of a table. -/
def columnLoop (tableName pgTimezone : List Char) (rows : List ColumnRow) : ColumnLoopState :=
  columnLoopFrom tableName pgTimezone rows.length 0 (initialColumnState tableName) rows

/-- Lines 497-498: the finished CREATE TABLE statement. -/
def createTableQuery (st : ColumnLoopState) : List Char :=
  st.sqlite_create_query ++ ");".toList

/-- Lines 539-540: the finished INSERT statement. -/
def insertQuery (st : ColumnLoopState) : List Char :=
  st.sqlite_insert_query ++ ");".toList

/-- Lines 679-684: the projection entries joined by commas. -/
def joinProjection : List (List Char) → List Char
  | [] => []
  | [c] => c
  | c :: d :: cs => c ++ ",".toList ++ joinProjection (d :: cs)

/-- Lines 676-690: the data query of a table. -/
def selectQuery (useSelectOnly : Bool) (tableName : List Char)
    (colNamesForPqSelect : List (List Char)) : List Char :=
  "SELECT ".toList ++ joinProjection colNamesForPqSelect ++ " FROM ".toList
    ++ (if useSelectOnly then " ONLY ".toList else []) ++ "   ".toList ++ tableName ++ ";".toList

/-! ## Calls to the two databases -/

/-- A value handed to `sqlite3_bind_null`, `sqlite3_bind_text` or
`sqlite3_bind_blob` (the buffer and the length passed, an `int`). -/
inductive BindValue where
  | null
  | text (s : List Char)
  | blob (buf : List Char) (len : Int)
deriving DecidableEq, Repr

/-- One call made to the target (SQLite) or to the source (PostgreSQL), with
the statement text or the arguments that matter. -/
inductive Event where
  | sqliteExec (sql : List Char)
  | sqlitePrepare (sql : List Char)
  | sqliteBind (idx : Nat) (v : BindValue)
  | sqliteStep
  | sqliteReset
  | sqliteFinalize
  | pgExec (sql : List Char)
  | allocBuffer (len : Nat)
  | loOpen (oid : Nat)
  | loRead (len : Nat)
  | loClose
deriving DecidableEq, Repr

/-- `PQresultStatus`, as far as the program tells the values apart. -/
inductive ExecStatus where
  | tuplesOk
  | commandOk
  | failed
deriving DecidableEq, Repr

/-- The test `status == PGRES_TUPLES_OK || status == PGRES_COMMAND_OK`. -/
def ExecStatus.accepted (s : ExecStatus) : Bool :=
  s = ExecStatus.tuplesOk || s = ExecStatus.commandOk

/-- The value of `SQLITE_OK`. -/
def SQLITE_OK : Int := 0

/-- The value of `SQLITE_DONE`. -/
def SQLITE_DONE : Int := 101

/-- Largest value of `size_t` (64 bits); `return -1` from a function returning
`size_t` yields this value. -/
def SIZE_MAX : Nat := 2 ^ 64 - 1

/-- Conversion of a signed integer to `size_t`. -/
def toSizeT (x : Int) : Nat := (x % (2 ^ 64 : Int)).toNat

/-- The test `isspace` of the C locale. -/
def isspace (c : Char) : Bool :=
  c = ' ' || c.toNat = 9 || c.toNat = 10 || c.toNat = 11 || c.toNat = 12 || c.toNat = 13

/-- Value of the leading decimal digits of a text, continuing from `acc`. -/
def leadingDigits (acc : Nat) : List Char → Nat
  | [] => acc
  | c :: cs => if c.isDigit then leadingDigits (acc * 10 + (c.toNat - 48)) cs else acc

/-- The number a text starts with: blanks are skipped, then an optional sign
and the leading digits are read. -/
def decimalValue (s : List Char) : Int :=
  match s.dropWhile isspace with
  | '-' :: r => - (leadingDigits 0 r : Int)
  | '+' :: r => (leadingDigits 0 r : Int)
  | r => (leadingDigits 0 r : Int)

/-- The call `strtol(s, NULL, 10)` with a 64-bit `long`: the number the text
starts with, held to the range from `LONG_MIN` to `LONG_MAX`. -/
def strtol (s : List Char) : Int :=
  max (-(2 ^ 63)) (min (2 ^ 63 - 1) (decimalValue s))

/-- The value a signed 32-bit variable holds after the conversion of `x`. -/
def wrap32 (x : Int) : Int := (x + 2 ^ 31) % 2 ^ 32 - 2 ^ 31

/-- The function `atol`, which is `strtol(s, NULL, 10)`. -/
def atol (s : List Char) : Int := strtol s

/-- The function `atoi`, which is `(int) strtol(s, NULL, 10)`: a number
outside the range of `int` is cut to its low 32 bits. -/
def atoi (s : List Char) : Int := wrap32 (strtol s)

/-- Conversion of an `int` to `Oid`, an unsigned integer of 32 bits (the
argument of `lo_open`). -/
def toOid (x : Int) : Nat := (x % (2 ^ 32 : Int)).toNat

/-- Largest size of one object, `PTRDIFF_MAX`; no allocation above it
succeeds. -/
def PTRDIFF_MAX : Nat := 2 ^ 63 - 1

/-- The status of a process ended by `abort`, as a shell reports it (128 + 6):
an exception nobody catches, such as `std::bad_alloc`, ends the program this
way. -/
def ABORTED : Int := 134

/-- Decimal text of an `int` written to a stream. -/
def intText (x : Int) : List Char := (toString x).toList

/-- Lines 372-384: the catalog query for the columns of a table. -/
def columnsQuery (tableName : List Char) : List Char :=
  "select    column_name,    column_default,    data_type     from    information_schema.columns  where   table_name='".toList
    ++ tableName ++ "' order by   ordinal_position;".toList

/-- Lines 577-580: the size query of a table alone. -/
def plainSizeQuery (tableName : List Char) : List Char :=
  "SELECT  pg_size_pretty(pg_total_relation_size('".toList ++ tableName
    ++ "')),  pg_total_relation_size('".toList ++ tableName ++ "')  ;".toList

/-- Lines 570-575: the size query of a table with its children. -/
def inheritedSizeQuery (tableName : List Char) : List Char :=
  "SELECT  pg_size_pretty(COALESCE(sum(pg_total_relation_size(i.inhrelid::regclass))::bigint, 0) + pg_total_relation_size('".toList
    ++ tableName
    ++ "')),  COALESCE(sum(pg_total_relation_size(i.inhrelid::regclass))::bigint, 0) + pg_total_relation_size('".toList
    ++ tableName ++ "')  FROM   pg_inherits i  WHERE  i.inhparent = '".toList ++ tableName
    ++ "'::regclass ;".toList

/-- Lines 563-582: the text sent to learn the size of a table. -/
def sizeQuery (useSelectOnly : Bool) (tableName : List Char) : List Char :=
  if !useSelectOnly then plainSizeQuery tableName ++ inheritedSizeQuery tableName
  else plainSizeQuery tableName

/-- Lines 613-637: the catalog query for the indexes of a table. -/
def indexesQuery (tableName : List Char) : List Char :=
  " select   i.relname as index_name,  t.relname as table_name,  array_to_string(array_agg(a.attname), ', ') as column_names from  pg_class t,  pg_class i,  pg_index ix,  pg_attribute a where  t.oid = ix.indrelid  and i.oid = ix.indexrelid  and a.attrelid = t.oid  and a.attnum = ANY(ix.indkey)  and t.relkind = 'r'  and t.relname = '".toList
    ++ tableName ++ "' group by   t.relname,  i.relname order by  t.relname,  i.relname;".toList

/-- One row of the index query `(index_name, table_name, column_names)`. -/
structure IndexRow where
  indexName : List Char
  tableName : List Char
  columnNames : List Char
deriving DecidableEq, Repr

/-- Lines 651-656: the CREATE INDEX statement of one index row. -/
def createIndexQuery (ix : IndexRow) : List Char :=
  "CREATE INDEX ".toList ++ " '".toList ++ ix.indexName ++ "'".toList ++ "  ON ".toList
    ++ " '".toList ++ ix.tableName ++ "'".toList ++ " (".toList ++ ix.columnNames ++ ");".toList

/-- Lines 166-183: the statement that installs the helper `get_lo_size`. -/
def installQuery : List Char :=
  "DROP FUNCTION IF EXISTS get_lo_size(oid); CREATE OR REPLACE FUNCTION get_lo_size(oid) RETURNS bigint AS $$ ".toList
    ++ "DECLARE \n".toList ++ "    fd integer; \n".toList ++ "    sz bigint; \n".toList
    ++ "BEGIN \n".toList
    ++ "    -- Open the LO; N.B. it needs to be in a transaction otherwise it will close immediately. \n".toList
    ++ "    -- Luckily a function invocation makes its own transaction if necessary. \n".toList
    ++ "    -- The mode x'40000'::int corresponds to the PostgreSQL LO mode INV_READ = 0x40000. \n".toList
    ++ "    fd := lo_open($1, x'40000'::int); \n".toList
    ++ "    -- Seek to the end.  2 = SEEK_END. \n".toList
    ++ "    PERFORM lo_lseek(fd, 0, 2); \n".toList
    ++ "    -- Fetch the current file position; since we're at the end, this is the size. \n".toList
    ++ "    sz := lo_tell(fd); \n".toList
    ++ "    -- Remember to close it, since the function may be called as part of a larger transaction. \n".toList
    ++ "    PERFORM lo_close(fd); \n".toList ++ "    -- Return the size. \n".toList
    ++ "    RETURN sz; \n".toList ++ "END; $$ LANGUAGE 'plpgsql' VOLATILE STRICT; ".toList

/-- Lines 196-199: the size probe of one large object. -/
def probeQuery (oid : Int) : List Char :=
  "SELECT get_lo_size(".toList ++ intText oid ++ ");".toList

/-- Line 133: the statement that removes the helper `get_lo_size`. -/
def dropQuery : List Char := "DROP FUNCTION IF EXISTS get_lo_size(oid);".toList

/-- Lines 291-301: the query that lists the tables. -/
def tablesQuery (excludeTables : List (List Char)) : List Char :=
  "SELECT    table_name,     (CASE WHEN table_name::regclass IN (SELECT inhrelid FROM pg_inherits) THEN 1 ELSE 0 END) AS is_child  FROM    information_schema.tables  WHERE   table_schema NOT IN ('pg_catalog', 'information_schema') ".toList
    ++ (excludeTables.map (fun excludeTable =>
      " AND table_name NOT LIKE $dollarQuote$".toList ++ excludeTable
        ++ "$dollarQuote$ ".toList ++ "\n".toList)).flatten
    ++ " ; ".toList ++ "\n".toList

/-! ## What the databases answer -/

/-- Command-line options read by the transfer. -/
structure Options where
  pgTimezone : List Char
  excludeTables : List (List Char)
  dumpLargeObjects : Bool
  useMaxDumpSize : Bool
  useSelectOnly : Bool

/-- Answers received while one large-object cell is handled. -/
structure LOReply where
  /-- Status of the statement installing the helper (read only when the helper
  is not installed yet). -/
  installStatus : ExecStatus
  /-- Status of the size probe. -/
  sizeStatus : ExecStatus
  /-- Text of the single cell of the size probe. -/
  sizeValue : List Char
  /-- Whether memory for the buffer is available to `new char[lObjSize]` (read
  only for a size up to `PTRDIFF_MAX`). -/
  allocOk : Bool
  /-- Content of the buffer after `lo_read`. -/
  readData : List Char
  /-- Result of `lo_close`. -/
  closeRet : Int
  /-- Status of `COMMIT` after a failed close. -/
  commitStatus : ExecStatus

/-- Answers received while one table is handled.  A cell of the data query is
`none` for SQL NULL (`PQgetisnull` is 1 and `PQgetvalue` is the empty text). -/
structure TableReply where
  tableName : List Char
  isChild : List Char
  columnsStatus : ExecStatus
  columnsNFields : Nat
  columns : List ColumnRow
  prepareRet : Int
  beginStatus : ExecStatus
  sizeStatus : ExecStatus
  tableSizeBytes : Int
  indexesStatus : ExecStatus
  indexes : List IndexRow
  dataStatus : ExecStatus
  rowCount : Nat
  colCount : Nat
  cell : Nat → Nat → Option (List Char)
  lo : Nat → Nat → LOReply
  bindRet : Nat → Nat → Int
  stepRet : Nat → Int
  commitStatus : ExecStatus

/-- Answers received during a whole run. -/
structure RunReply where
  tablesStatus : ExecStatus
  tablesNFields : Nat
  tables : List TableReply
  dropStatus : ExecStatus

/-- The call `PQgetisnull(res, i, j) == 1`. -/
def PQgetisnull (cell : Option (List Char)) : Bool := cell.isNone

/-- The call `PQgetvalue(res, i, j)`. -/
def PQgetvalue (cell : Option (List Char)) : List Char := cell.getD []

/-! ## Large objects (lines 159-212 and 741-780) -/

/-- Lines 159-212: the events of the size probe, the size returned, and the
new value of the static flag `haveFunction`. -/
def getLargeObjectSize_v2 (r : LOReply) (haveFunction : Bool) (oid : Int) :
    List Event × Nat × Bool :=
  let probe (install : List Event) : List Event × Nat × Bool :=
    let events := install ++ [Event.pgExec (probeQuery oid)]
    if !r.sizeStatus.accepted then (events, SIZE_MAX, true)
    else (events, toSizeT (atol r.sizeValue), true)
  if !haveFunction then
    if !r.installStatus.accepted then ([Event.pgExec installQuery], SIZE_MAX, false)
    else probe [Event.pgExec installQuery]
  else probe []

/-- Lines 741-780: a cell of a large-object column.  The result is the return
code of the bind and the flag `haveFunction`, or the exit code when the
process ends here.  When `new char[lObjSize]` finds no memory, which is the
case of every size above `PTRDIFF_MAX`, it throws `std::bad_alloc`, which
nothing catches: the process is aborted on the spot. -/
def largeObjectCell (r : LOReply) (bindRet : Int) (j : Nat) (value : List Char)
    (haveFunction : Bool) : List Event × Except Int (Int × Bool) :=
  let oid := atoi value
  let probe := getLargeObjectSize_v2 r haveFunction oid
  let lObjSize := probe.2.1
  if lObjSize = 0 then
    (probe.1 ++ [Event.pgExec dropQuery], Except.error 1)
  else
    let alloc := probe.1 ++ [Event.loOpen (toOid oid), Event.allocBuffer lObjSize]
    if lObjSize > PTRDIFF_MAX ∨ r.allocOk = false then (alloc, Except.error ABORTED)
    else
      let fetch := alloc ++ [Event.loRead lObjSize, Event.loClose]
      if r.closeRet ≠ 0 then
        if r.commitStatus ≠ ExecStatus.commandOk then
          (fetch ++ [Event.pgExec "COMMIT".toList], Except.error 1)
        else
          (fetch ++ [Event.pgExec "COMMIT".toList, Event.pgExec dropQuery], Except.error 1)
      else
        (fetch ++ [Event.sqliteBind (j + 1) (BindValue.blob r.readData (wrap32 lObjSize))],
          Except.ok (bindRet, probe.2.2))

/-! ## Cells that are not large objects (lines 781-838) -/

/-- Lines 782-837: the binds made for a cell that is not handled as a large
object; the Boolean that travels along is `handledSpecially`. -/
def plainCell (timeZoneColumns timeStampColumns : List Nat) (j : Nat)
    (cell : Option (List Char)) : List Event :=
  let fieldIsNull := PQgetisnull cell
  let plainValue := PQgetvalue cell
  let s1 : List Event × Bool :=
    if j ∈ timeZoneColumns then
      match strrchr plainValue '+' with
      | none => ([], false)
      | some zonePart =>
        ([Event.sqliteBind (j + 1) (BindValue.text (plainValue.take zonePart))], true)
    else ([], false)
  let s2 : List Event × Bool :=
    if !s1.2 && decide (j ∈ timeStampColumns) then
      if plainValue = "infinity".toList then
        (s1.1 ++ [Event.sqliteBind (j + 1) (BindValue.text "9999-12-31 12:00:00".toList)], true)
      else if plainValue = "-infinity".toList then
        (s1.1 ++ [Event.sqliteBind (j + 1) (BindValue.text "0000-00-00 12:00:00".toList)], true)
      else s1
    else s1
  let s3 : List Event × Bool :=
    if !s2.2 then
      if plainValue = "infinity".toList then
        (s2.1 ++ [Event.sqliteBind (j + 1) (BindValue.text "9e999".toList)], true)
      else if plainValue = "-infinity".toList then
        (s2.1 ++ [Event.sqliteBind (j + 1) (BindValue.text "-9e999".toList)], true)
      else s2
    else s2
  if !s3.2 then
    if fieldIsNull then s3.1 ++ [Event.sqliteBind (j + 1) BindValue.null]
    else s3.1 ++ [Event.sqliteBind (j + 1) (BindValue.text plainValue)]
  else s3.1

/-! ## The row loop (lines 736-866) -/

/-- The sets of column positions the row loop consults. -/
structure ColumnSets where
  largeObjectColumns : List Nat
  timeZoneColumns : List Nat
  timeStampColumns : List Nat

/-- Lines 738-843: the body of the loop over the cells of row `i`; the result
is the new value of `haveFunction`, or the exit code. -/
def cellBody (sets : ColumnSets) (t : TableReply) (i j : Nat) (haveFunction : Bool) :
    List Event × Except Int Bool :=
  if j ∈ sets.largeObjectColumns then
    match largeObjectCell (t.lo i j) (t.bindRet i j) j (PQgetvalue (t.cell i j)) haveFunction with
    | (events, Except.error code) => (events, Except.error code)
    | (events, Except.ok (ret2, have2)) =>
      if ret2 ≠ SQLITE_OK then (events, Except.error (-1)) else (events, Except.ok have2)
  else
    let events := plainCell sets.timeZoneColumns sets.timeStampColumns j (t.cell i j)
    let ret2 := if events.isEmpty then 0 else t.bindRet i j
    if ret2 ≠ SQLITE_OK then (events, Except.error (-1)) else (events, Except.ok haveFunction)

/-- Line 737: the loop over the cells of row `i`, with `remaining` cells left
from position `j` on. -/
def cellLoop (sets : ColumnSets) (t : TableReply) (i : Nat) :
    (remaining : Nat) → (j : Nat) → Bool → List Event × Except Int Bool
  | 0, _, haveFunction => ([], Except.ok haveFunction)
  | remaining + 1, j, haveFunction =>
    match cellBody sets t i j haveFunction with
    | (events, Except.error code) => (events, Except.error code)
    | (events, Except.ok have2) =>
      let rest := cellLoop sets t i remaining (j + 1) have2
      (events ++ rest.1, rest.2)

/-- Lines 860-864: the commit forced inside a large table after row `i`. -/
def periodicCommit (rowCount i : Nat) : List Event :=
  if rowCount > 100000 && i % 100000 == 0 then
    [Event.sqliteExec "END TRANSACTION;".toList, Event.sqliteExec "BEGIN TRANSACTION;".toList]
  else []

/-- Lines 737-865: the body of the row loop for row `i`. -/
def rowBody (sets : ColumnSets) (t : TableReply) (i : Nat) (haveFunction : Bool) :
    List Event × Except Int Bool :=
  match cellLoop sets t i t.colCount 0 haveFunction with
  | (events, Except.error code) => (events, Except.error code)
  | (events, Except.ok have2) =>
    if t.stepRet i ≠ SQLITE_DONE then (events ++ [Event.sqliteStep], Except.error (-1))
    else
      (events ++ [Event.sqliteStep, Event.sqliteReset] ++ periodicCommit t.rowCount i,
        Except.ok have2)

/-- Line 736: the row loop, with `remaining` rows left from row `i` on. -/
def rowLoop (sets : ColumnSets) (t : TableReply) :
    (remaining : Nat) → (i : Nat) → Bool → List Event × Except Int Bool
  | 0, _, haveFunction => ([], Except.ok haveFunction)
  | remaining + 1, i, haveFunction =>
    match rowBody sets t i haveFunction with
    | (events, Except.error code) => (events, Except.error code)
    | (events, Except.ok have2) =>
      let rest := rowLoop sets t remaining (i + 1) have2
      (events ++ rest.1, rest.2)

/-! ## One table (lines 312-875) and the whole run -/

/-- The value a signed 64-bit variable holds after a computation whose exact
result is `x`. -/
def wrap64 (x : Int) : Int := (x + 2 ^ 63) % 2 ^ 64 - 2 ^ 63

/-- Lines 594-597: the size ceiling, built by three multiplications of a
`long long`. -/
def maxDumpSize : Int := wrap64 (wrap64 (wrap64 (1 * 1024) * 1024) * 1024)

/-- Lines 719-721: the sets consulted by the row loop; the large-object set
is emptied when large objects are not dumped. -/
def rowSets (o : Options) (st : ColumnLoopState) : ColumnSets where
  largeObjectColumns := if o.dumpLargeObjects != true then [] else st.largeObjectColumns
  timeZoneColumns := st.timeZoneColumns
  timeStampColumns := st.timeStampColumns

/-- Lines 648-670: the statements recreating the indexes. -/
def indexEvents (t : TableReply) : List Event :=
  t.indexes.map (fun ix => Event.sqliteExec (createIndexQuery ix))

/-- Lines 554-874: what happens to a table once its insert statement is
prepared: size check, indexes, data query, row loop, commit on the source. -/
def transferTable (o : Options) (t : TableReply) (st : ColumnLoopState) (haveFunction : Bool) :
    List Event × Except Int Bool :=
  let begin1 := [Event.pgExec "BEGIN".toList]
  if t.beginStatus ≠ ExecStatus.commandOk then (begin1, Except.error 1)
  else
    let size1 := begin1 ++ [Event.pgExec (sizeQuery o.useSelectOnly t.tableName)]
    if !t.sizeStatus.accepted then (size1, Except.error (-1))
    else if o.useMaxDumpSize = true ∧ t.tableSizeBytes > maxDumpSize then
      if t.commitStatus ≠ ExecStatus.commandOk then
        (size1 ++ [Event.pgExec "COMMIT".toList], Except.error 1)
      else (size1 ++ [Event.pgExec "COMMIT".toList], Except.ok haveFunction)
    else
      let index1 := size1 ++ [Event.pgExec (indexesQuery t.tableName)]
      if !t.indexesStatus.accepted then (index1, Except.error (-1))
      else
        let select1 := index1 ++ indexEvents t
          ++ [Event.pgExec (selectQuery o.useSelectOnly t.tableName st.colNamesForPqSelect)]
        if !t.dataStatus.accepted then (select1, Except.error (-1))
        else
          match rowLoop (rowSets o st) t t.rowCount 0 haveFunction with
          | (events, Except.error code) => (select1 ++ events, Except.error code)
          | (events, Except.ok have2) =>
            if t.commitStatus ≠ ExecStatus.commandOk then
              (select1 ++ events ++ [Event.pgExec "COMMIT".toList], Except.error 1)
            else
              (select1 ++ events ++ [Event.pgExec "COMMIT".toList, Event.sqliteFinalize],
                Except.ok have2)

/-- Lines 392-490: the state after the column loop of a table (the loop runs
only for a result with tuples). -/
def mappedColumns (o : Options) (t : TableReply) : ColumnLoopState :=
  if t.columnsStatus = ExecStatus.tuplesOk then columnLoop t.tableName o.pgTimezone t.columns
  else initialColumnState t.tableName

/-- Lines 495-544: CREATE TABLE, the triggers, and the preparation of the
insert statement. -/
def schemaEvents (st : ColumnLoopState) : List Event :=
  [Event.sqliteExec (createTableQuery st)] ++ st.sqliteTriggers.map Event.sqliteExec
    ++ [Event.sqlitePrepare (insertQuery st)]

/-- Lines 312-875: the body of the loop over the tables.  The result is the
new value of `haveFunction` when the loop goes on, or the exit code. -/
def processTable (o : Options) (t : TableReply) (haveFunction : Bool) :
    List Event × Except Int Bool :=
  let isChildTable := atoi t.isChild == 1
  if isChildTable && !o.useSelectOnly then ([], Except.ok haveFunction)
  else
    let columns1 := [Event.pgExec (columnsQuery t.tableName)]
    if !t.columnsStatus.accepted then (columns1, Except.error (-1))
    else if t.columnsStatus = ExecStatus.tuplesOk ∧ t.columns ≠ [] ∧ t.columnsNFields ≠ 3 then
      (columns1, Except.error 1)
    else
      let st := mappedColumns o t
      let schema1 := columns1 ++ schemaEvents st
      if t.prepareRet ≠ SQLITE_OK then (schema1, Except.ok haveFunction)
      else
        let rest := transferTable o t st haveFunction
        (schema1 ++ rest.1, rest.2)

/-- Line 312: the loop over the tables. -/
def tableLoop (o : Options) : List TableReply → Bool → List Event × Except Int Bool
  | [], haveFunction => ([], Except.ok haveFunction)
  | t :: ts, haveFunction =>
    match processTable o t haveFunction with
    | (events, Except.error code) => (events, Except.error code)
    | (events, Except.ok have2) =>
      let rest := tableLoop o ts have2
      (events ++ rest.1, rest.2)

/-- Lines 286-921: the run from the opening of the target transaction on: the
calls made and the exit code. -/
def main (o : Options) (r : RunReply) : List Event × Int :=
  let head := [Event.sqliteExec "BEGIN TRANSACTION;".toList,
    Event.pgExec (tablesQuery o.excludeTables)]
  if !r.tablesStatus.accepted then (head, -1)
  else if r.tablesStatus = ExecStatus.tuplesOk ∧ r.tablesNFields = 2 then
    match tableLoop o r.tables false with
    | (events, Except.error code) => (head ++ events, code)
    | (events, Except.ok _) =>
      if r.dropStatus ≠ ExecStatus.commandOk then
        (head ++ events ++ [Event.pgExec dropQuery], 1)
      else
        (head ++ events ++ [Event.pgExec dropQuery, Event.sqliteExec "END TRANSACTION;".toList,
          Event.sqliteExec "ANALYZE;".toList], 0)
  else (head, 1)

/-- Lines 403-455: the text one catalog row contributes to the CREATE TABLE
statement, before the separator. -/
def columnDefinition (r : ColumnRow) : List Char :=
  let colDefault := (defaultBlock [] r.colName (normalizeType r.colType) r.colDefault []).1
  r.colName ++ " ".toList ++ normalizeType r.colType
    ++ (if colDefault.length > 0 then " default ".toList ++ colDefault else [])

/-- Lines 472-483: the entry one catalog row contributes to the projection of
the data query. -/
def projectionEntry (pgTimezone : List Char) (r : ColumnRow) : List Char :=
  if contains (normalizeType r.colType) "without time zone".toList then
    zoneProjection pgTimezone r.colName
  else r.colName

/-- Lines 486-489: the separator written after the catalog row number `row`. -/
def separator (rowCount row : Nat) : List Char :=
  if row = rowCount - 1 then [] else ", ".toList

/-! ## The rewrite table of defaults, as the specification words it -/

/-- The part of a text before the first occurrence of `pat` (the whole text
when `pat` does not occur). -/
def beforeFirst (pat : List Char) : List Char → List Char
  | [] => []
  | c :: cs => if pat <+: c :: cs then [] else c :: beforeFirst pat cs

/-- The ordered rewrite rules for a default expression that is not
sequence-backed: a test on the source text and the text emitted. -/
def defaultRules : List ((List Char → Bool) × (List Char → List Char)) :=
  [ (fun d => decide (d = "now()".toList), fun _ => "CURRENT_TIMESTAMP".toList),
    (fun d => decide ("'infinity'::timestamp".toList <+: d),
      fun _ => "'9999-12-31 12:00:00'".toList),
    (fun d => decide ("'-infinity'::timestamp".toList <+: d),
      fun _ => "'0000-00-00 12:00:00'".toList),
    (fun d => decide ("'Infinity'".toList <:+: d), fun _ => "9e999".toList),
    (fun d => decide ("'-Infinity'".toList <:+: d), fun _ => "-9e999".toList),
    (fun d => decide ("::".toList <:+: d), fun d => beforeFirst "::".toList d) ]

/-- First-match-wins evaluation of a rule list; a text no rule matches is
emitted unchanged. -/
def firstMatch : List ((List Char → Bool) × (List Char → List Char)) → List Char → List Char
  | [], d => d
  | rule :: rules, d => if rule.1 d then rule.2 d else firstMatch rules d

/-- The placeholder positions of the binds of a trace, in the order of the
calls. -/
def bindIndices : List Event → List Nat
  | [] => []
  | Event.sqliteBind idx _ :: es => idx :: bindIndices es
  | _ :: es => bindIndices es

/-! ## The value bound for a cell, as the specification words it -/

/-- The text before the last occurrence of `ch` (the whole text when `ch` does
not occur). -/
def beforeLast (ch : Char) (s : List Char) : List Char :=
  match strrchr s ch with
  | some p => s.take p
  | none => s

/-- The value bound for a cell that is not a large object (specification 4.6,
items 2 to 4): NULL for a source NULL; in a zone-affected column the text
before the last '+' when the value has one; otherwise the sentinel for
"infinity" and for "-infinity", of the timestamp kind in a timestamp column
and of the numeric kind elsewhere; otherwise the text as it is. -/
def convertedCell (zoneAffected timestamp : Bool) : Option (List Char) → BindValue
  | none => BindValue.null
  | some v =>
    if zoneAffected = true ∧ '+' ∈ v then BindValue.text (beforeLast '+' v)
    else if v = "infinity".toList then
      BindValue.text (if timestamp then "9999-12-31 12:00:00".toList else "9e999".toList)
    else if v = "-infinity".toList then
      BindValue.text (if timestamp then "0000-00-00 12:00:00".toList else "-9e999".toList)
    else BindValue.text v

/-! ## Observations on a trace and conditions on the answers -/

/-- Number of row inserts (`sqlite3_step`) of a trace. -/
def countSteps (trace : List Event) : Nat := trace.count Event.sqliteStep

/-- Numbers of row inserts in the stretches of a trace that the statements
END TRANSACTION delimit, `cur` being the number of inserts already made in
the stretch under way: the first entry counts the rows before the first
commit, the last entry the rows after the last commit. -/
def stepsBetweenCommits (cur : Nat) : List Event → List Nat
  | [] => [cur]
  | Event.sqliteStep :: es => stepsBetweenCommits (cur + 1) es
  | Event.sqliteExec sql :: es =>
    if sql = "END TRANSACTION;".toList then cur :: stepsBetweenCommits 0 es
    else stepsBetweenCommits cur es
  | _ :: es => stepsBetweenCommits cur es

/-- Lines 337-591: the table is not a child skipped at line 346, its catalog
query is answered with rows of three fields, its insert statement is
prepared, and the source answers BEGIN and the size query: the size test of
line 593 is reached. -/
@[reducible] def reachesSizeGuard (o : Options) (t : TableReply) : Prop :=
  ¬ (atoi t.isChild = 1 ∧ o.useSelectOnly = false)
  ∧ t.columnsStatus.accepted = true
  ∧ ¬ (t.columnsStatus = ExecStatus.tuplesOk ∧ t.columns ≠ [] ∧ t.columnsNFields ≠ 3)
  ∧ t.prepareRet = SQLITE_OK
  ∧ t.beginStatus = ExecStatus.commandOk
  ∧ t.sizeStatus.accepted = true

/-- Every row of the table goes through: whatever the row of the data query
and the state of the helper, the body of the row loop ends without leaving
the program. -/
@[reducible] def rowsSucceed (sets : ColumnSets) (t : TableReply) : Prop :=
  ∀ (i : Nat) (haveFunction : Bool), i < t.rowCount →
    ∃ events have2, rowBody sets t i haveFunction = (events, Except.ok have2)

/-! ## Sample inputs -/

/-- Options of a run with the default settings. -/
def sampleOptions : Options where
  pgTimezone := "Europe/Berlin".toList
  excludeTables := []
  dumpLargeObjects := true
  useMaxDumpSize := true
  useSelectOnly := false

/-- Answers for a small table `t` with the given catalog rows, whose data
query returns one row, every cell of which is `cell`. -/
def sampleTable (columns : List ColumnRow) (cell : Option (List Char)) : TableReply where
  tableName := "t".toList
  isChild := "0".toList
  columnsStatus := ExecStatus.tuplesOk
  columnsNFields := 3
  columns := columns
  prepareRet := 0
  beginStatus := ExecStatus.commandOk
  sizeStatus := ExecStatus.tuplesOk
  tableSizeBytes := 8192
  indexesStatus := ExecStatus.tuplesOk
  indexes := []
  dataStatus := ExecStatus.tuplesOk
  rowCount := 1
  colCount := columns.length
  cell := fun _ _ => cell
  lo := fun _ _ =>
    { installStatus := ExecStatus.commandOk
      sizeStatus := ExecStatus.tuplesOk
      sizeValue := "4".toList
      allocOk := true
      readData := "data".toList
      closeRet := 0
      commitStatus := ExecStatus.commandOk }
  bindRet := fun _ _ => 0
  stepRet := fun _ => 101
  commitStatus := ExecStatus.commandOk

/-- Answers for the table `t (id integer default nextval('t_id_seq'::regclass))`
with the index `t_pkey` on `id` and the single row `(7)`. -/
def sampleSerialTable : TableReply :=
  { sampleTable [⟨"id".toList, "nextval('t_id_seq'::regclass)".toList, "integer".toList⟩]
      (some "7".toList) with
    indexes := [⟨"t_pkey".toList, "t".toList, "id".toList⟩] }

/-- Answers for the table `sampleSerialTable` when the source reports a size
of 2 GiB for it. -/
def sampleOversizedTable : TableReply :=
  { sampleSerialTable with tableSizeBytes := 2147483648 }

/-- Answers for a table `t (c text)` of 200000 rows, every cell of which is
"abc". -/
def sampleBigTable : TableReply :=
  { sampleTable [⟨"c".toList, [], "text".toList⟩] (some "abc".toList) with rowCount := 200000 }

/-- Answers for a table `t (data oid)` with the single row `(16385)`, with the
given answers for the large object, return code of the bind and return code
of the row insert. -/
def sampleLargeObjectTable (lo : LOReply) (bindRet stepRet : Int) : TableReply :=
  { sampleTable [⟨"data".toList, [], "oid".toList⟩] (some "16385".toList) with
    lo := fun _ _ => lo
    bindRet := fun _ _ => bindRet
    stepRet := fun _ => stepRet }

/-- Answers for a large object of four bytes that is probed, read and closed
without error. -/
def sampleObject : LOReply where
  installStatus := ExecStatus.commandOk
  sizeStatus := ExecStatus.tuplesOk
  sizeValue := "4".toList
  allocOk := true
  readData := "data".toList
  closeRet := 0
  commitStatus := ExecStatus.commandOk

/-- Answers for a run over the given tables. -/
def sampleRun (tables : List TableReply) : RunReply where
  tablesStatus := ExecStatus.tuplesOk
  tablesNFields := 2
  tables := tables
  dropStatus := ExecStatus.commandOk

/-- Answers for a large object whose size probe is answered with an error. -/
def sampleFailedProbe : LOReply :=
  { sampleObject with sizeStatus := ExecStatus.failed }

/-- Answers for a table whose catalog query is answered with an error. -/
def sampleBrokenTable : TableReply :=
  { sampleTable [] none with columnsStatus := ExecStatus.failed }

/-- Options of a run with the size ceiling switched off. -/
def sampleUnlimitedOptions : Options :=
  { sampleOptions with useMaxDumpSize := false }

/-- Options of a run in select-only mode. -/
def sampleSelectOnlyOptions : Options :=
  { sampleOptions with useSelectOnly := true }

/-- Answers for a table `t (c text)` with the single row `("abc")`, reported
with 5 GiB. -/
def sampleHugeTable : TableReply :=
  { sampleTable [⟨"c".toList, [], "text".toList⟩] (some "abc".toList) with
    tableSizeBytes := 5368709120 }

/-- Answers for a table `t (c text)` with the single row `("abc")` that the
source flags as a child. -/
def sampleChildTable : TableReply :=
  { sampleTable [⟨"c".toList, [], "text".toList⟩] (some "abc".toList) with
    isChild := "1".toList }

/-- Answers for a table `t (id integer, c text)` with the single row
`(7, "abc")`. -/
def sampleTwoColumnTable : TableReply :=
  { sampleTable [⟨"id".toList, [], "integer".toList⟩, ⟨"c".toList, [], "text".toList⟩] none with
    cell := fun _ j => if j = 0 then some "7".toList else some "abc".toList }

/-! ## Lemmas on the string primitives -/

set_option maxRecDepth 100000

theorem find_eq_some_zero_iff (s pat : List Char) : find s pat = some 0 ↔ pat <+: s := by
  cases s with
  | nil =>
    simp only [find]
    split_ifs with h
    · simpa using List.isPrefixOf_iff_prefix.mp h
    · simp only [false_iff]; intro hp; exact h (List.isPrefixOf_iff_prefix.mpr hp)
  | cons c cs =>
    simp only [find]
    split_ifs with h
    · simpa using List.isPrefixOf_iff_prefix.mp h
    · constructor
      · intro h0
        cases hf : find cs pat with
        | none => simp [hf] at h0
        | some p => simp [hf] at h0
      · intro hp; exact absurd (List.isPrefixOf_iff_prefix.mpr hp) h

theorem find_spec (s pat : List Char) (p : Nat) (h : find s pat = some p) :
    pat <+: s.drop p ∧ ∀ k, k < p → ¬ pat <+: s.drop k := by
  induction s generalizing p with
  | nil =>
    simp only [find] at h
    split_ifs at h with hp
    · cases h
      exact ⟨by simpa using List.isPrefixOf_iff_prefix.mp hp, by intro k hk; omega⟩
  | cons c cs ih =>
    simp only [find] at h
    split_ifs at h with hp
    · cases h
      exact ⟨by simpa using List.isPrefixOf_iff_prefix.mp hp, by intro k hk; omega⟩
    · cases hf : find cs pat with
      | none => simp [hf] at h
      | some q =>
        simp only [hf, Option.map_some', Option.some.injEq] at h
        subst h
        obtain ⟨h1, h2⟩ := ih q hf
        refine ⟨by simpa using h1, ?_⟩
        intro k hk
        cases k with
        | zero =>
          simp only [List.drop_zero]
          intro hpre; exact hp (List.isPrefixOf_iff_prefix.mpr hpre)
        | succ k => simpa using h2 k (by omega)

theorem contains_iff (s pat : List Char) : contains s pat = true ↔ pat <:+: s := by
  unfold contains
  induction s with
  | nil =>
    simp only [find]
    split_ifs with h
    · simp only [Option.isSome_some, true_iff]
      exact (List.isPrefixOf_iff_prefix.mp h).isInfix
    · simp only [Option.isSome_none, Bool.false_eq_true, false_iff]
      intro hi
      have : pat = [] := List.eq_nil_of_infix_nil hi
      subst this
      exact h (by simp)
  | cons c cs ih =>
    simp only [find]
    split_ifs with h
    · simp only [Option.isSome_some, true_iff]
      exact (List.isPrefixOf_iff_prefix.mp h).isInfix
    · rw [Option.isSome_map', ih, List.infix_cons_iff]
      constructor
      · intro hi; exact Or.inr hi
      · rintro (hp | hi)
        · exact absurd (List.isPrefixOf_iff_prefix.mpr hp) h
        · exact hi

theorem contains_false_iff (s pat : List Char) : contains s pat = false ↔ ¬ pat <:+: s := by
  rw [← contains_iff]; simp

theorem find_eq_some_iff_beforeFirst (s pat : List Char) (p : Nat) (h : find s pat = some p) :
    s.take p = beforeFirst pat s := by
  induction s generalizing p with
  | nil => simp [beforeFirst]
  | cons c cs ih =>
    simp only [find] at h
    split_ifs at h with hp
    · cases h
      have hp2 : pat <+: c :: cs := List.isPrefixOf_iff_prefix.mp hp
      simp [beforeFirst, hp2]
    · have hp2 : ¬ pat <+: c :: cs := fun hc => hp (List.isPrefixOf_iff_prefix.mpr hc)
      cases hf : find cs pat with
      | none => simp [hf] at h
      | some q =>
        simp only [hf, Option.map_some', Option.some.injEq] at h
        subst h
        simp [beforeFirst, hp2, ih q hf]

theorem find_eq_none_iff (s pat : List Char) : find s pat = none ↔ ¬ pat <:+: s := by
  rw [← contains_false_iff]; unfold contains; cases find s pat <;> simp

theorem strrchr_eq_none_iff (s : List Char) (ch : Char) : strrchr s ch = none ↔ ch ∉ s := by
  induction s with
  | nil => simp [strrchr]
  | cons c cs ih =>
    simp only [strrchr]
    cases hr : strrchr cs ch with
    | some p =>
      have : ¬ ch ∉ cs := fun hn => by rw [ih.mpr hn] at hr; cases hr
      simp only [List.mem_cons, not_or, false_iff, reduceCtorEq]
      intro hc; exact this hc.2
    | none =>
      have hn : ch ∉ cs := ih.mp hr
      by_cases hc : c = ch
      · simp [hc]
      · simp [hc, hn, Ne.symm hc]

theorem strrchr_spec (s : List Char) (ch : Char) (p : Nat) (h : strrchr s ch = some p) :
    s = s.take p ++ ch :: s.drop (p + 1) ∧ ch ∉ s.drop (p + 1) := by
  induction s generalizing p with
  | nil => simp [strrchr] at h
  | cons c cs ih =>
    simp only [strrchr] at h
    cases hr : strrchr cs ch with
    | some q =>
      simp only [hr, Option.some.injEq] at h
      subst h
      obtain ⟨h1, h2⟩ := ih q hr
      refine ⟨?_, by simpa using h2⟩
      simp only [List.take_succ_cons, List.drop_succ_cons, List.cons_append, List.cons.injEq,
        true_and]
      exact h1
    | none =>
      simp only [hr] at h
      split_ifs at h with hc
      cases h
      subst hc
      have hn : c ∉ cs := (strrchr_eq_none_iff cs c).mp hr
      simpa using hn

theorem normalizeType_eq_replace (colType : List Char) :
    normalizeType colType = replaceChar colType '-' ' ' := by
  unfold normalizeType
  split_ifs with h
  · rfl
  · have hno : '-' ∉ colType := by
      intro hm
      obtain ⟨a, b, hab⟩ := List.append_of_mem hm
      exact h ((contains_iff _ _).mpr ⟨a, b, by rw [hab]; simp⟩)
    unfold replaceChar
    symm
    calc colType.map (fun c => if c = '-' then ' ' else c)
        = colType.map id := by
          apply List.map_congr_left
          intro c hc
          have : c ≠ '-' := fun hcc => hno (hcc ▸ hc)
          simp [this]
      _ = colType := List.map_id _

theorem replaceChar_fixed (a b : Char) :
    ∀ (s pat : List Char), replaceChar s a b = pat → (∀ c ∈ pat, c ≠ b) → s = pat := by
  intro s
  induction s with
  | nil => intro pat h _; simpa [replaceChar] using h
  | cons c cs ih =>
    intro pat h hb
    cases pat with
    | nil => simp [replaceChar] at h
    | cons d ds =>
      simp only [replaceChar, List.map_cons, List.cons.injEq] at h
      obtain ⟨h1, h2⟩ := h
      have hd : d ≠ b := hb d (by simp)
      have hc : c = d := by
        by_cases hca : c = a
        · rw [if_pos hca] at h1; exact absurd h1.symm hd
        · rw [if_neg hca] at h1; exact h1
      rw [hc, ih ds h2 (fun x hx => hb x (List.mem_cons_of_mem _ hx))]

theorem infix_replaceChar_iff (a b : Char) (s pat : List Char)
    (ha : ∀ c ∈ pat, c ≠ a) (hb : ∀ c ∈ pat, c ≠ b) :
    pat <:+: replaceChar s a b ↔ pat <:+: s := by
  have hfix : replaceChar pat a b = pat := by
    unfold replaceChar
    calc pat.map (fun c => if c = a then b else c) = pat.map id := by
          apply List.map_congr_left
          intro c hc
          simp [ha c hc]
      _ = pat := List.map_id _
  constructor
  · rintro ⟨x, y, hxy⟩
    unfold replaceChar at hxy
    obtain ⟨l1, l2, h1, h2, _⟩ := List.map_eq_append_iff.mp hxy.symm
    obtain ⟨l3, l4, h3, _, h5⟩ := List.map_eq_append_iff.mp h2
    have : l4 = pat := replaceChar_fixed a b l4 pat h5 hb
    exact ⟨l3, l2, by rw [h1, h3, this]⟩
  · rintro ⟨x, y, hxy⟩
    refine ⟨replaceChar x a b, replaceChar y a b, ?_⟩
    rw [← hxy]
    unfold replaceChar at hfix ⊢
    simp only [List.map_append]
    rw [hfix]

theorem timestamp_normalizeType_iff (colType : List Char) :
    "timestamp".toList <:+: normalizeType colType ↔ "timestamp".toList <:+: colType := by
  rw [normalizeType_eq_replace]
  exact infix_replaceChar_iff '-' ' ' colType _ (by decide) (by decide)

/-! ## Lemmas on the column loop -/

theorem defaultBlock_fst (tableName colName colType colDefault : List Char)
    (triggers : List (List Char)) :
    (defaultBlock tableName colName colType colDefault triggers).1
      = (defaultBlock [] colName colType colDefault []).1 := by
  unfold defaultBlock; split_ifs <;> rfl

theorem columnStep_create (tableName pgTimezone : List Char) (rowCount row : Nat)
    (st : ColumnLoopState) (r : ColumnRow) :
    (columnStep tableName pgTimezone rowCount row st r).sqlite_create_query
      = st.sqlite_create_query ++ columnDefinition r ++ separator rowCount row := by
  simp only [columnStep, columnDefinition, separator]
  rw [defaultBlock_fst]
  split_ifs <;> simp [List.append_assoc]

theorem columnStep_insert (tableName pgTimezone : List Char) (rowCount row : Nat)
    (st : ColumnLoopState) (r : ColumnRow) :
    (columnStep tableName pgTimezone rowCount row st r).sqlite_insert_query
      = st.sqlite_insert_query ++ "?".toList ++ separator rowCount row := by
  simp only [columnStep, separator]
  split_ifs <;> simp

theorem columnStep_names (tableName pgTimezone : List Char) (rowCount row : Nat)
    (st : ColumnLoopState) (r : ColumnRow) :
    (columnStep tableName pgTimezone rowCount row st r).colNamesForPqSelect
      = st.colNamesForPqSelect ++ [projectionEntry pgTimezone r] := by
  simp only [columnStep, projectionEntry]

theorem columnStep_triggers (tableName pgTimezone : List Char) (rowCount row : Nat)
    (st : ColumnLoopState) (r : ColumnRow) :
    (columnStep tableName pgTimezone rowCount row st r).sqliteTriggers
      = (defaultBlock tableName r.colName (normalizeType r.colType) r.colDefault
          st.sqliteTriggers).2 := rfl

theorem columnStep_largeObject (tableName pgTimezone : List Char) (rowCount row : Nat)
    (st : ColumnLoopState) (r : ColumnRow) (k : Nat) :
    k ∈ (columnStep tableName pgTimezone rowCount row st r).largeObjectColumns
      ↔ k ∈ st.largeObjectColumns ∨ (k = row ∧ normalizeType r.colType = "oid".toList) := by
  simp only [columnStep]
  split_ifs with h
  · rw [List.mem_insert_iff]; tauto
  · tauto

theorem columnStep_timeStamp (tableName pgTimezone : List Char) (rowCount row : Nat)
    (st : ColumnLoopState) (r : ColumnRow) (k : Nat) :
    k ∈ (columnStep tableName pgTimezone rowCount row st r).timeStampColumns
      ↔ k ∈ st.timeStampColumns
        ∨ (k = row ∧ "timestamp".toList <:+: normalizeType r.colType) := by
  simp only [columnStep, ← contains_iff]
  split_ifs with h
  · rw [List.mem_insert_iff]; tauto
  · tauto

theorem columnStep_timeZone (tableName pgTimezone : List Char) (rowCount row : Nat)
    (st : ColumnLoopState) (r : ColumnRow) (k : Nat) :
    k ∈ (columnStep tableName pgTimezone rowCount row st r).timeZoneColumns
      ↔ k ∈ st.timeZoneColumns
        ∨ (k = row ∧ ("with time zone".toList <:+: normalizeType r.colType
          ∨ "without time zone".toList <:+: normalizeType r.colType)) := by
  simp only [columnStep, ← contains_iff]
  split_ifs with h1 h2 h2 <;> (try simp only [List.mem_insert_iff]) <;> tauto

theorem columnLoopFrom_create (tableName pgTimezone : List Char) (rowCount : Nat) :
    ∀ (rows : List ColumnRow) (row : Nat) (st : ColumnLoopState),
      row + rows.length = rowCount →
      (columnLoopFrom tableName pgTimezone rowCount row st rows).sqlite_create_query
        = st.sqlite_create_query ++ ", ".toList.intercalate (rows.map columnDefinition) := by
  intro rows
  induction rows with
  | nil => intro row st _; simp [columnLoopFrom, List.intercalate]
  | cons r rs ih =>
    intro row st hlen
    simp only [List.length_cons] at hlen
    rw [columnLoopFrom, ih (row + 1) _ (by omega), columnStep_create]
    cases rs with
    | nil =>
      have : row = rowCount - 1 := by simp at hlen; omega
      simp [separator, this, List.intercalate]
    | cons r2 rs2 =>
      have : ¬ row = rowCount - 1 := by simp at hlen; omega
      simp [separator, this, List.intercalate, List.append_assoc]

theorem columnLoopFrom_insert (tableName pgTimezone : List Char) (rowCount : Nat) :
    ∀ (rows : List ColumnRow) (row : Nat) (st : ColumnLoopState),
      row + rows.length = rowCount →
      (columnLoopFrom tableName pgTimezone rowCount row st rows).sqlite_insert_query
        = st.sqlite_insert_query
          ++ ", ".toList.intercalate (List.replicate rows.length "?".toList) := by
  intro rows
  induction rows with
  | nil => intro row st _; simp [columnLoopFrom, List.intercalate]
  | cons r rs ih =>
    intro row st hlen
    simp only [List.length_cons] at hlen
    rw [columnLoopFrom, ih (row + 1) _ (by omega), columnStep_insert]
    cases rs with
    | nil =>
      have : row = rowCount - 1 := by simp at hlen; omega
      simp [separator, this, List.intercalate]
    | cons r2 rs2 =>
      have : ¬ row = rowCount - 1 := by simp at hlen; omega
      simp [separator, this, List.intercalate, List.append_assoc, List.replicate_succ]

theorem columnLoopFrom_names (tableName pgTimezone : List Char) (rowCount : Nat) :
    ∀ (rows : List ColumnRow) (row : Nat) (st : ColumnLoopState),
      (columnLoopFrom tableName pgTimezone rowCount row st rows).colNamesForPqSelect
        = st.colNamesForPqSelect ++ rows.map (projectionEntry pgTimezone) := by
  intro rows
  induction rows with
  | nil => intro row st; simp [columnLoopFrom]
  | cons r rs ih =>
    intro row st
    rw [columnLoopFrom, ih, columnStep_names]
    simp

theorem columnLoopFrom_mem (tableName pgTimezone : List Char) (rowCount : Nat)
    (proj : ColumnLoopState → List Nat) (P : ColumnRow → Prop)
    (hstep : ∀ (row : Nat) (st : ColumnLoopState) (r : ColumnRow) (k : Nat),
      k ∈ proj (columnStep tableName pgTimezone rowCount row st r)
        ↔ k ∈ proj st ∨ (k = row ∧ P r)) :
    ∀ (rows : List ColumnRow) (row : Nat) (st : ColumnLoopState) (k : Nat),
      k ∈ proj (columnLoopFrom tableName pgTimezone rowCount row st rows)
        ↔ k ∈ proj st ∨ ∃ r, row ≤ k ∧ rows[k - row]? = some r ∧ P r := by
  intro rows
  induction rows with
  | nil => intro row st k; simp [columnLoopFrom]
  | cons r rs ih =>
    intro row st k
    rw [columnLoopFrom, ih, hstep]
    constructor
    · rintro ((h | ⟨h1, h2⟩) | ⟨r2, h1, h2, h3⟩)
      · exact Or.inl h
      · subst h1; exact Or.inr ⟨r, le_refl _, by simp, h2⟩
      · refine Or.inr ⟨r2, by omega, ?_, h3⟩
        have : k - row = (k - (row + 1)) + 1 := by omega
        rw [this]; simpa using h2
    · rintro (h | ⟨r2, h1, h2, h3⟩)
      · exact Or.inl (Or.inl h)
      · rcases Nat.eq_or_lt_of_le h1 with h4 | h4
        · subst h4
          simp only [Nat.sub_self, List.getElem?_cons_zero, Option.some.injEq] at h2
          subst h2
          exact Or.inl (Or.inr ⟨rfl, h3⟩)
        · have : k - row = (k - (row + 1)) + 1 := by omega
          rw [this] at h2
          exact Or.inr ⟨r2, by omega, by simpa using h2, h3⟩

theorem joinProjection_eq (names : List (List Char)) :
    joinProjection names = ",".toList.intercalate names := by
  induction names with
  | nil => simp [joinProjection, List.intercalate]
  | cons c cs ih =>
    cases cs with
    | nil => simp [joinProjection, List.intercalate]
    | cons d ds =>
      rw [joinProjection, ih]
      simp [List.intercalate, List.append_assoc]

theorem columnLoop_largeObject (tableName pgTimezone : List Char) (rows : List ColumnRow)
    (k : Nat) :
    k ∈ (columnLoop tableName pgTimezone rows).largeObjectColumns
      ↔ ∃ r, rows[k]? = some r ∧ normalizeType r.colType = "oid".toList := by
  unfold columnLoop
  rw [columnLoopFrom_mem tableName pgTimezone rows.length (fun st => st.largeObjectColumns)
    (fun r => normalizeType r.colType = "oid".toList)
    (fun row st r k => columnStep_largeObject tableName pgTimezone rows.length row st r k)]
  simp [initialColumnState]

theorem columnLoop_timeStamp (tableName pgTimezone : List Char) (rows : List ColumnRow)
    (k : Nat) :
    k ∈ (columnLoop tableName pgTimezone rows).timeStampColumns
      ↔ ∃ r, rows[k]? = some r ∧ "timestamp".toList <:+: normalizeType r.colType := by
  unfold columnLoop
  rw [columnLoopFrom_mem tableName pgTimezone rows.length (fun st => st.timeStampColumns)
    (fun r => "timestamp".toList <:+: normalizeType r.colType)
    (fun row st r k => columnStep_timeStamp tableName pgTimezone rows.length row st r k)]
  simp [initialColumnState]

theorem columnLoop_timeZone (tableName pgTimezone : List Char) (rows : List ColumnRow)
    (k : Nat) :
    k ∈ (columnLoop tableName pgTimezone rows).timeZoneColumns
      ↔ ∃ r, rows[k]? = some r ∧ ("with time zone".toList <:+: normalizeType r.colType
          ∨ "without time zone".toList <:+: normalizeType r.colType) := by
  unfold columnLoop
  rw [columnLoopFrom_mem tableName pgTimezone rows.length (fun st => st.timeZoneColumns)
    (fun r => "with time zone".toList <:+: normalizeType r.colType
      ∨ "without time zone".toList <:+: normalizeType r.colType)
    (fun row st r k => columnStep_timeZone tableName pgTimezone rows.length row st r k)]
  simp [initialColumnState]

theorem defaultBlock_sequence (tableName colName colType colDefault : List Char)
    (triggers : List (List Char))
    (hnext : "nextval(".toList <:+: colDefault)
    (hseq : "seq'::regclass)".toList <:+: colDefault) :
    defaultBlock tableName colName colType colDefault triggers
      = ([], if colType = "integer".toList then triggers ++ [triggerQuery tableName colName]
          else triggers) := by
  have h1 := (contains_iff _ _).mpr hnext
  have h2 := (contains_iff _ _).mpr hseq
  simp only [defaultBlock, h1, h2, Bool.and_self, if_true]

theorem defaultBlock_plain (tableName colName colType colDefault : List Char)
    (triggers : List (List Char))
    (h : ¬ ("nextval(".toList <:+: colDefault ∧ "seq'::regclass)".toList <:+: colDefault)) :
    defaultBlock tableName colName colType colDefault triggers
      = (rewriteDefault colDefault, triggers) := by
  have : ¬ ((contains colDefault "nextval(".toList
      && contains colDefault "seq'::regclass)".toList) = true) := by
    rw [Bool.and_eq_true, contains_iff, contains_iff]; exact h
  simp only [defaultBlock, this, if_false]
  rfl

theorem triggerQuery_text (tableName colName : List Char) :
    triggerQuery tableName colName
      = "CREATE TRIGGER ".toList ++ tableName ++ "_".toList ++ colName
        ++ "_autoincrement AFTER INSERT ON ".toList ++ tableName
        ++ " FOR EACH ROW when new.".toList ++ colName ++ " is NULL  BEGIN  UPDATE ".toList
        ++ tableName ++ " SET ".toList ++ colName ++ " = (SELECT IFNULL(MAX(".toList ++ colName
        ++ ")+1,0) FROM ".toList ++ tableName
        ++ ") WHERE rowid = new.rowid; END; ".toList := by
  simp only [triggerQuery, List.append_assoc]
  rfl

theorem rewriteDefault_eq_firstMatch (d : List Char) :
    rewriteDefault d = firstMatch defaultRules d := by
  simp only [rewriteDefault, defaultRules, firstMatch, find_eq_some_zero_iff, contains_iff,
    decide_eq_true_eq]
  split_ifs with h1 h2 h3 h4 h5 h6
  · rfl
  · rfl
  · rfl
  · rfl
  · rfl
  · obtain ⟨p, hp⟩ := Option.isSome_iff_exists.mp ((contains_iff _ _).mpr h6)
    rw [hp]
    exact find_eq_some_iff_beforeFirst d _ p hp
  · rw [(find_eq_none_iff _ _).mpr h6]

/-! ## Type and default mapper: claims C3 to C6 -/

/-- C3: a column whose default contains "nextval(" and "seq'::regclass)" and
whose normalised type is exactly "integer" gets an empty default, hence no
default clause in CREATE TABLE, and adds exactly one trigger to the table: the
AFTER INSERT, FOR EACH ROW trigger that fires when new.column is NULL and sets
the column to IFNULL(MAX(column)+1,0) over the table where rowid = new.rowid. -/
theorem autoincrement_integer_column (tableName pgTimezone : List Char) (rowCount row : Nat)
    (st : ColumnLoopState) (r : ColumnRow)
    (hnext : "nextval(".toList <:+: r.colDefault)
    (hseq : "seq'::regclass)".toList <:+: r.colDefault)
    (hint : normalizeType r.colType = "integer".toList) :
    (defaultBlock tableName r.colName (normalizeType r.colType) r.colDefault
        st.sqliteTriggers).1 = []
    ∧ (columnStep tableName pgTimezone rowCount row st r).sqlite_create_query
        = st.sqlite_create_query ++ r.colName ++ " integer".toList ++ separator rowCount row
    ∧ (columnStep tableName pgTimezone rowCount row st r).sqliteTriggers
        = st.sqliteTriggers ++
          ["CREATE TRIGGER ".toList ++ tableName ++ "_".toList ++ r.colName
            ++ "_autoincrement AFTER INSERT ON ".toList ++ tableName
            ++ " FOR EACH ROW when new.".toList ++ r.colName
            ++ " is NULL  BEGIN  UPDATE ".toList ++ tableName ++ " SET ".toList ++ r.colName
            ++ " = (SELECT IFNULL(MAX(".toList ++ r.colName ++ ")+1,0) FROM ".toList
            ++ tableName ++ ") WHERE rowid = new.rowid; END; ".toList] := by
  refine ⟨?_, ?_, ?_⟩
  · rw [defaultBlock_sequence _ _ _ _ _ hnext hseq]
  · rw [columnStep_create, columnDefinition, defaultBlock_sequence _ _ _ _ _ hnext hseq, hint]
    simp only [List.length_nil, gt_iff_lt, lt_self_iff_false, if_false, List.append_nil,
      List.append_assoc]
    rfl
  · rw [columnStep_triggers, defaultBlock_sequence _ _ _ _ _ hnext hseq, hint,
      ← triggerQuery_text]
    simp

/-- C3, on the column `id integer default nextval('t_id_seq'::regclass)` of a
table `t`. -/
theorem autoincrement_integer_column_witness :
    (columnStep "t".toList "UTC".toList 1 0 (initialColumnState "t".toList)
        ⟨"id".toList, "nextval('t_id_seq'::regclass)".toList, "integer".toList⟩).sqlite_create_query
      = "CREATE TABLE t (id integer".toList
    ∧ (columnStep "t".toList "UTC".toList 1 0 (initialColumnState "t".toList)
        ⟨"id".toList, "nextval('t_id_seq'::regclass)".toList, "integer".toList⟩).sqliteTriggers
      = [("CREATE TRIGGER t_id_autoincrement AFTER INSERT ON t FOR EACH ROW when new.id is NULL "
          ++ " BEGIN  UPDATE t SET id = (SELECT IFNULL(MAX(id)+1,0) FROM t) "
          ++ "WHERE rowid = new.rowid; END; ").toList] :=
  ⟨(autoincrement_integer_column "t".toList "UTC".toList 1 0 (initialColumnState "t".toList)
      ⟨"id".toList, "nextval('t_id_seq'::regclass)".toList, "integer".toList⟩
      (by decide) (by decide) (by decide)).2.1,
    (autoincrement_integer_column "t".toList "UTC".toList 1 0 (initialColumnState "t".toList)
      ⟨"id".toList, "nextval('t_id_seq'::regclass)".toList, "integer".toList⟩
      (by decide) (by decide) (by decide)).2.2⟩

/-- C4 as stated fails: for the column `id bigint default
nextval('t_id_seq'::regclass)` the rewrite table would give the default
"nextval('t_id_seq'", but the block empties the default and the column has no
default clause in CREATE TABLE. -/
theorem sequence_default_non_integer_counterexample :
    "nextval(".toList <:+: "nextval('t_id_seq'::regclass)".toList
    ∧ "seq'::regclass)".toList <:+: "nextval('t_id_seq'::regclass)".toList
    ∧ normalizeType "bigint".toList ≠ "integer".toList
    ∧ rewriteDefault "nextval('t_id_seq'::regclass)".toList = "nextval('t_id_seq'".toList
    ∧ (defaultBlock "t".toList "id".toList (normalizeType "bigint".toList)
        "nextval('t_id_seq'::regclass)".toList []).1
      ≠ rewriteDefault "nextval('t_id_seq'::regclass)".toList
    ∧ createTableQuery (columnLoop "t".toList "UTC".toList
        [⟨"id".toList, "nextval('t_id_seq'::regclass)".toList, "bigint".toList⟩])
      = "CREATE TABLE t (id bigint);".toList := by
  decide

/-- C4, amended: a column whose default is a sequence-generator call and whose
normalised type is not "integer" adds no trigger, and its default is emptied
all the same: the column has no default clause in CREATE TABLE. -/
theorem sequence_default_non_integer (tableName pgTimezone : List Char) (rowCount row : Nat)
    (st : ColumnLoopState) (r : ColumnRow)
    (hnext : "nextval(".toList <:+: r.colDefault)
    (hseq : "seq'::regclass)".toList <:+: r.colDefault)
    (hint : normalizeType r.colType ≠ "integer".toList) :
    (columnStep tableName pgTimezone rowCount row st r).sqliteTriggers = st.sqliteTriggers
    ∧ (defaultBlock tableName r.colName (normalizeType r.colType) r.colDefault
        st.sqliteTriggers).1 = []
    ∧ (columnStep tableName pgTimezone rowCount row st r).sqlite_create_query
        = st.sqlite_create_query ++ r.colName ++ " ".toList ++ normalizeType r.colType
          ++ separator rowCount row := by
  refine ⟨?_, ?_, ?_⟩
  · rw [columnStep_triggers, defaultBlock_sequence _ _ _ _ _ hnext hseq, if_neg hint]
  · rw [defaultBlock_sequence _ _ _ _ _ hnext hseq]
  · rw [columnStep_create, columnDefinition, defaultBlock_sequence _ _ _ _ _ hnext hseq]
    simp only [List.length_nil, gt_iff_lt, lt_self_iff_false, if_false, List.append_nil,
      List.append_assoc]

/-- C4 amended, on the column `id bigint default nextval('t_id_seq'::regclass)`. -/
theorem sequence_default_non_integer_witness :
    (columnStep "t".toList "UTC".toList 1 0 (initialColumnState "t".toList)
        ⟨"id".toList, "nextval('t_id_seq'::regclass)".toList, "bigint".toList⟩).sqliteTriggers = []
    ∧ (columnStep "t".toList "UTC".toList 1 0 (initialColumnState "t".toList)
        ⟨"id".toList, "nextval('t_id_seq'::regclass)".toList, "bigint".toList⟩).sqlite_create_query
      = "CREATE TABLE t (id bigint".toList :=
  ⟨(sequence_default_non_integer "t".toList "UTC".toList 1 0 (initialColumnState "t".toList)
      ⟨"id".toList, "nextval('t_id_seq'::regclass)".toList, "bigint".toList⟩
      (by decide) (by decide) (by decide)).1,
    (sequence_default_non_integer "t".toList "UTC".toList 1 0 (initialColumnState "t".toList)
      ⟨"id".toList, "nextval('t_id_seq'::regclass)".toList, "bigint".toList⟩
      (by decide) (by decide) (by decide)).2.2⟩

/-- C5: after the column loop, position `k` is in the large-object set if and
only if the `k`-th catalog row has a type that is exactly "oid" after hyphen
normalisation; replacing the names and defaults of the rows by anything else
does not change the classification. -/
theorem largeObject_iff_oid (tableName pgTimezone : List Char) (rows : List ColumnRow)
    (k : Nat) :
    (k ∈ (columnLoop tableName pgTimezone rows).largeObjectColumns
      ↔ ∃ r, rows[k]? = some r ∧ normalizeType r.colType = "oid".toList)
    ∧ ∀ (newName newDefault : ColumnRow → List Char),
        (k ∈ (columnLoop tableName pgTimezone
            (rows.map (fun r => ⟨newName r, newDefault r, r.colType⟩))).largeObjectColumns
          ↔ k ∈ (columnLoop tableName pgTimezone rows).largeObjectColumns) := by
  refine ⟨columnLoop_largeObject _ _ _ _, ?_⟩
  intro newName newDefault
  rw [columnLoop_largeObject, columnLoop_largeObject]
  simp only [List.getElem?_map]
  constructor
  · rintro ⟨r, h1, h2⟩
    cases hk : rows[k]? with
    | none => simp [hk] at h1
    | some r0 =>
      simp only [hk, Option.map_some', Option.some.injEq] at h1
      subst h1
      exact ⟨r0, rfl, h2⟩
  · rintro ⟨r, h1, h2⟩
    exact ⟨⟨newName r, newDefault r, r.colType⟩, by simp [h1], h2⟩

/-- C6: the default emitted for a default expression that is not
sequence-backed is the result of the first matching rule of the ordered list
`defaultRules` ("now()", the two timestamp infinities, the two numeric
infinities, the cut before the first "::"), and the text itself when no rule
matches; when the text contains "::", the cut is the part of the text before
its first "::". -/
theorem default_rewrite_first_match (tableName colName colType colDefault : List Char)
    (triggers : List (List Char))
    (hplain : ¬ ("nextval(".toList <:+: colDefault
      ∧ "seq'::regclass)".toList <:+: colDefault)) :
    (defaultBlock tableName colName colType colDefault triggers).1
      = firstMatch defaultRules colDefault
    ∧ ("::".toList <:+: colDefault →
        (∃ rest, colDefault = beforeFirst "::".toList colDefault ++ "::".toList ++ rest)
        ∧ ∀ k, k < (beforeFirst "::".toList colDefault).length →
            ¬ "::".toList <+: colDefault.drop k) := by
  refine ⟨?_, ?_⟩
  · rw [defaultBlock_plain _ _ _ _ _ hplain, rewriteDefault_eq_firstMatch]
  · intro hcast
    obtain ⟨p, hp⟩ := Option.isSome_iff_exists.mp ((contains_iff _ _).mpr hcast)
    obtain ⟨h1, h2⟩ := find_spec _ _ p hp
    rw [← find_eq_some_iff_beforeFirst _ _ p hp]
    obtain ⟨rest, hrest⟩ := h1
    refine ⟨⟨rest, ?_⟩, ?_⟩
    · rw [List.append_assoc, hrest, List.take_append_drop]
    · intro k hk
      exact h2 k (lt_of_lt_of_le hk (List.length_take_le _ _))

/-- C6, on the default `'x'::text`, which only the last rule matches. -/
theorem default_rewrite_first_match_witness :
    ¬ ("nextval(".toList <:+: "'x'::text".toList ∧ "seq'::regclass)".toList <:+: "'x'::text".toList)
    ∧ (defaultBlock "t".toList "c".toList "text".toList "'x'::text".toList []).1 = "'x'".toList :=
  ⟨by decide,
    (default_rewrite_first_match "t".toList "c".toList "text".toList "'x'::text".toList []
      (by decide)).1⟩

/-! ## Lemmas on the cells -/

theorem cellBody_plain (sets : ColumnSets) (t : TableReply) (i j : Nat) (haveFunction : Bool)
    (h : j ∉ sets.largeObjectColumns) :
    (cellBody sets t i j haveFunction).1
      = plainCell sets.timeZoneColumns sets.timeStampColumns j (t.cell i j) := by
  simp only [cellBody, h, if_false]
  split_ifs <;> rfl

theorem plainCell_zone (timeZoneColumns timeStampColumns : List Nat) (j : Nat)
    (cell : Option (List Char)) (p : Nat) (hz : j ∈ timeZoneColumns)
    (hp : strrchr (PQgetvalue cell) '+' = some p) :
    plainCell timeZoneColumns timeStampColumns j cell
      = [Event.sqliteBind (j + 1) (BindValue.text ((PQgetvalue cell).take p))] := by
  simp [plainCell, hz, hp]

theorem plainCell_rest (timeZoneColumns timeStampColumns : List Nat) (j : Nat)
    (cell : Option (List Char))
    (hz : j ∈ timeZoneColumns → strrchr (PQgetvalue cell) '+' = none) :
    plainCell timeZoneColumns timeStampColumns j cell
      = [Event.sqliteBind (j + 1)
          (if PQgetvalue cell = "infinity".toList then
            BindValue.text (if j ∈ timeStampColumns then "9999-12-31 12:00:00".toList
              else "9e999".toList)
          else if PQgetvalue cell = "-infinity".toList then
            BindValue.text (if j ∈ timeStampColumns then "0000-00-00 12:00:00".toList
              else "-9e999".toList)
          else if PQgetisnull cell = true then BindValue.null
          else BindValue.text (PQgetvalue cell))] := by
  have hs1 : (if j ∈ timeZoneColumns then
      match strrchr (PQgetvalue cell) '+' with
      | none => (([] : List Event), false)
      | some zonePart =>
        ([Event.sqliteBind (j + 1) (BindValue.text ((PQgetvalue cell).take zonePart))], true)
    else ([], false)) = ([], false) := by
    split_ifs with h
    · rw [hz h]
    · rfl
  simp only [plainCell, hs1]
  generalize "infinity".toList = inf
  generalize "-infinity".toList = minf
  generalize "9999-12-31 12:00:00".toList = a
  generalize "0000-00-00 12:00:00".toList = b
  generalize "9e999".toList = c
  generalize "-9e999".toList = d
  by_cases h1 : PQgetvalue cell = inf
  · by_cases h2 : j ∈ timeStampColumns <;> simp [h1, h2]
  · by_cases h3 : PQgetvalue cell = minf
    · rw [h3] at h1
      by_cases h2 : j ∈ timeStampColumns <;> simp [h1, h3, h2]
    · by_cases h2 : j ∈ timeStampColumns <;> by_cases h4 : PQgetisnull cell = true <;>
        simp [h1, h3, h2, h4]

theorem rowSets_timeStamp (o : Options) (tableName : List Char) (rows : List ColumnRow)
    (j : Nat) (r : ColumnRow) (hcol : rows[j]? = some r) :
    j ∈ (rowSets o (columnLoop tableName o.pgTimezone rows)).timeStampColumns
      ↔ "timestamp".toList <:+: normalizeType r.colType := by
  simp only [rowSets, columnLoop_timeStamp, hcol, Option.some.injEq, exists_eq_left']

theorem rowSets_timeZone (o : Options) (tableName : List Char) (rows : List ColumnRow)
    (j : Nat) (r : ColumnRow) (hcol : rows[j]? = some r) :
    j ∈ (rowSets o (columnLoop tableName o.pgTimezone rows)).timeZoneColumns
      ↔ ("with time zone".toList <:+: normalizeType r.colType
          ∨ "without time zone".toList <:+: normalizeType r.colType) := by
  simp only [rowSets, columnLoop_timeZone, hcol, Option.some.injEq, exists_eq_left']

theorem plainCell_single (timeZoneColumns timeStampColumns : List Nat) (j : Nat)
    (cell : Option (List Char)) :
    ∃ v, plainCell timeZoneColumns timeStampColumns j cell = [Event.sqliteBind (j + 1) v] := by
  by_cases hz : j ∈ timeZoneColumns
  · cases hp : strrchr (PQgetvalue cell) '+' with
    | none => exact ⟨_, plainCell_rest _ _ _ _ (fun _ => hp)⟩
    | some p => exact ⟨_, plainCell_zone _ _ _ _ p hz hp⟩
  · exact ⟨_, plainCell_rest _ _ _ _ (fun h => absurd h hz)⟩

/-! ## Cell conversion: claims C7 to C10 -/

/-- C7: a cell that is not handled as a large object is bound exactly once, at
placeholder j+1.  The raw value "infinity" is bound as the text
9999-12-31 12:00:00 when the type of the column contains "timestamp" (before
or after hyphen normalisation, which is the same) and as the text 9e999
otherwise; "-infinity" is bound as 0000-00-00 12:00:00 or
-9e999 in the same way; "Infinity" and "-Infinity" are bound unchanged. -/
theorem infinity_cell_binding (o : Options) (tableName : List Char) (rows : List ColumnRow)
    (t : TableReply) (i j : Nat) (haveFunction : Bool) (r : ColumnRow)
    (hcol : rows[j]? = some r)
    (hplain : j ∉ (rowSets o (columnLoop tableName o.pgTimezone rows)).largeObjectColumns) :
    (∃ v, (cellBody (rowSets o (columnLoop tableName o.pgTimezone rows)) t i j haveFunction).1
        = [Event.sqliteBind (j + 1) v])
    ∧ ("timestamp".toList <:+: normalizeType r.colType ↔ "timestamp".toList <:+: r.colType)
    ∧ (t.cell i j = some "infinity".toList →
        ("timestamp".toList <:+: normalizeType r.colType →
          (cellBody (rowSets o (columnLoop tableName o.pgTimezone rows)) t i j haveFunction).1
            = [Event.sqliteBind (j + 1) (BindValue.text "9999-12-31 12:00:00".toList)])
        ∧ (¬ "timestamp".toList <:+: normalizeType r.colType →
          (cellBody (rowSets o (columnLoop tableName o.pgTimezone rows)) t i j haveFunction).1
            = [Event.sqliteBind (j + 1) (BindValue.text "9e999".toList)]))
    ∧ (t.cell i j = some "-infinity".toList →
        ("timestamp".toList <:+: normalizeType r.colType →
          (cellBody (rowSets o (columnLoop tableName o.pgTimezone rows)) t i j haveFunction).1
            = [Event.sqliteBind (j + 1) (BindValue.text "0000-00-00 12:00:00".toList)])
        ∧ (¬ "timestamp".toList <:+: normalizeType r.colType →
          (cellBody (rowSets o (columnLoop tableName o.pgTimezone rows)) t i j haveFunction).1
            = [Event.sqliteBind (j + 1) (BindValue.text "-9e999".toList)]))
    ∧ (t.cell i j = some "Infinity".toList →
        (cellBody (rowSets o (columnLoop tableName o.pgTimezone rows)) t i j haveFunction).1
          = [Event.sqliteBind (j + 1) (BindValue.text "Infinity".toList)])
    ∧ (t.cell i j = some "-Infinity".toList →
        (cellBody (rowSets o (columnLoop tableName o.pgTimezone rows)) t i j haveFunction).1
          = [Event.sqliteBind (j + 1) (BindValue.text "-Infinity".toList)]) := by
  rw [cellBody_plain _ _ _ _ _ hplain]
  have hts := rowSets_timeStamp o tableName rows j r hcol
  refine ⟨plainCell_single _ _ _ _, timestamp_normalizeType_iff _, ?_, ?_, ?_, ?_⟩
  · intro hc
    rw [hc, plainCell_rest _ _ _ _ (fun _ => by decide)]
    constructor
    · intro h; rw [if_pos (by decide), if_pos (hts.mpr h)]
    · intro h; rw [if_pos (by decide), if_neg (fun hm => h (hts.mp hm))]
  · intro hc
    rw [hc, plainCell_rest _ _ _ _ (fun _ => by decide)]
    constructor
    · intro h; rw [if_neg (by decide), if_pos (by decide), if_pos (hts.mpr h)]
    · intro h; rw [if_neg (by decide), if_pos (by decide), if_neg (fun hm => h (hts.mp hm))]
  · intro hc
    rw [hc, plainCell_rest _ _ _ _ (fun _ => by decide)]
    rw [if_neg (by decide), if_neg (by decide), if_neg (by decide)]
    rfl
  · intro hc
    rw [hc, plainCell_rest _ _ _ _ (fun _ => by decide)]
    rw [if_neg (by decide), if_neg (by decide), if_neg (by decide)]
    rfl

/-- C7, on the value "infinity" in a column `timestamp without time zone`. -/
theorem infinity_cell_binding_witness :
    (cellBody (rowSets sampleOptions (columnLoop "t".toList sampleOptions.pgTimezone
        [⟨"ts".toList, [], "timestamp without time zone".toList⟩]))
      (sampleTable [⟨"ts".toList, [], "timestamp without time zone".toList⟩]
        (some "infinity".toList)) 0 0 false).1
      = [Event.sqliteBind 1 (BindValue.text "9999-12-31 12:00:00".toList)] :=
  ((infinity_cell_binding sampleOptions "t".toList
    [⟨"ts".toList, [], "timestamp without time zone".toList⟩]
    (sampleTable [⟨"ts".toList, [], "timestamp without time zone".toList⟩]
      (some "infinity".toList)) 0 0 false
    ⟨"ts".toList, [], "timestamp without time zone".toList⟩ rfl (by decide)).2.2.1 rfl).1
    (by decide)

/-- C8: in a zone-affected column (normalised type containing "with time zone"
or "without time zone") a raw value v that contains '+' is bound as the text
before the last '+' of v: v = bound ++ "+" ++ s where s has no '+'.  The value
2020-01-01 10:00:00+02 is bound as 2020-01-01 10:00:00. -/
theorem zone_suffix_stripped (o : Options) (tableName : List Char) (rows : List ColumnRow)
    (t : TableReply) (i j : Nat) (haveFunction : Bool) (r : ColumnRow) (v : List Char)
    (hcol : rows[j]? = some r)
    (hplain : j ∉ (rowSets o (columnLoop tableName o.pgTimezone rows)).largeObjectColumns)
    (hzone : "with time zone".toList <:+: normalizeType r.colType
      ∨ "without time zone".toList <:+: normalizeType r.colType)
    (hcell : t.cell i j = some v) (hplus : '+' ∈ v) :
    (∃ bound s,
      (cellBody (rowSets o (columnLoop tableName o.pgTimezone rows)) t i j haveFunction).1
        = [Event.sqliteBind (j + 1) (BindValue.text bound)]
      ∧ v = bound ++ "+".toList ++ s ∧ '+' ∉ s)
    ∧ (v = "2020-01-01 10:00:00+02".toList →
      (cellBody (rowSets o (columnLoop tableName o.pgTimezone rows)) t i j haveFunction).1
        = [Event.sqliteBind (j + 1) (BindValue.text "2020-01-01 10:00:00".toList)]) := by
  rw [cellBody_plain _ _ _ _ _ hplain, hcell]
  have hz := (rowSets_timeZone o tableName rows j r hcol).mpr hzone
  constructor
  · cases hp : strrchr v '+' with
    | none => exact absurd hplus ((strrchr_eq_none_iff v '+').mp hp)
    | some p =>
      obtain ⟨h1, h2⟩ := strrchr_spec v '+' p hp
      refine ⟨v.take p, v.drop (p + 1), plainCell_zone _ _ _ _ p hz hp, ?_, h2⟩
      simpa using h1
  · intro hv
    subst hv
    exact plainCell_zone _ _ _ _ 19 hz (by decide)

/-- C8, on the value 2020-01-01 10:00:00+02 in a column
`timestamp with time zone`. -/
theorem zone_suffix_stripped_witness :
    (cellBody (rowSets sampleOptions (columnLoop "t".toList sampleOptions.pgTimezone
        [⟨"ts".toList, [], "timestamp with time zone".toList⟩]))
      (sampleTable [⟨"ts".toList, [], "timestamp with time zone".toList⟩]
        (some "2020-01-01 10:00:00+02".toList)) 0 0 false).1
      = [Event.sqliteBind 1 (BindValue.text "2020-01-01 10:00:00".toList)] :=
  (zone_suffix_stripped sampleOptions "t".toList
    [⟨"ts".toList, [], "timestamp with time zone".toList⟩]
    (sampleTable [⟨"ts".toList, [], "timestamp with time zone".toList⟩]
      (some "2020-01-01 10:00:00+02".toList)) 0 0 false
    ⟨"ts".toList, [], "timestamp with time zone".toList⟩ "2020-01-01 10:00:00+02".toList
    rfl (by decide) (Or.inl (by decide)) rfl (by decide)).2 rfl

/-- C9 as stated fails: in a column `timestamp with time zone` the non-NULL
raw value "infinity" contains no '+', yet the text bound is
9999-12-31 12:00:00 and not the raw value. -/
theorem zone_passthrough_counterexample :
    "with time zone".toList <:+: normalizeType "timestamp with time zone".toList
    ∧ 0 ∉ (rowSets sampleOptions (columnLoop "t".toList sampleOptions.pgTimezone
        [⟨"ts".toList, [], "timestamp with time zone".toList⟩])).largeObjectColumns
    ∧ '+' ∉ "infinity".toList
    ∧ (cellBody (rowSets sampleOptions (columnLoop "t".toList sampleOptions.pgTimezone
          [⟨"ts".toList, [], "timestamp with time zone".toList⟩]))
        (sampleTable [⟨"ts".toList, [], "timestamp with time zone".toList⟩]
          (some "infinity".toList)) 0 0 false).1
      = [Event.sqliteBind 1 (BindValue.text "9999-12-31 12:00:00".toList)]
    ∧ (cellBody (rowSets sampleOptions (columnLoop "t".toList sampleOptions.pgTimezone
          [⟨"ts".toList, [], "timestamp with time zone".toList⟩]))
        (sampleTable [⟨"ts".toList, [], "timestamp with time zone".toList⟩]
          (some "infinity".toList)) 0 0 false).1
      ≠ [Event.sqliteBind 1 (BindValue.text "infinity".toList)] := by
  decide

/-- C9, amended: in a zone-affected column a non-NULL raw value that contains
no '+' and is neither "infinity" nor "-infinity" is bound as text equal to the
raw value. -/
theorem zone_passthrough (o : Options) (tableName : List Char) (rows : List ColumnRow)
    (t : TableReply) (i j : Nat) (haveFunction : Bool) (r : ColumnRow) (v : List Char)
    (_hcol : rows[j]? = some r)
    (hplain : j ∉ (rowSets o (columnLoop tableName o.pgTimezone rows)).largeObjectColumns)
    (_hzone : "with time zone".toList <:+: normalizeType r.colType
      ∨ "without time zone".toList <:+: normalizeType r.colType)
    (hcell : t.cell i j = some v) (hplus : '+' ∉ v)
    (hinf : v ≠ "infinity".toList) (hminf : v ≠ "-infinity".toList) :
    (cellBody (rowSets o (columnLoop tableName o.pgTimezone rows)) t i j haveFunction).1
      = [Event.sqliteBind (j + 1) (BindValue.text v)] := by
  rw [cellBody_plain _ _ _ _ _ hplain, hcell,
    plainCell_rest _ _ _ (some v) (fun _ => (strrchr_eq_none_iff v '+').mpr hplus)]
  have h1 : PQgetvalue (some v) = v := rfl
  rw [h1, if_neg hinf, if_neg hminf, if_neg (by simp [PQgetisnull])]

/-- C9 amended, on the value 2020-01-01 10:00:00 in a column
`timestamp with time zone`. -/
theorem zone_passthrough_witness :
    (cellBody (rowSets sampleOptions (columnLoop "t".toList sampleOptions.pgTimezone
        [⟨"ts".toList, [], "timestamp with time zone".toList⟩]))
      (sampleTable [⟨"ts".toList, [], "timestamp with time zone".toList⟩]
        (some "2020-01-01 10:00:00".toList)) 0 0 false).1
      = [Event.sqliteBind 1 (BindValue.text "2020-01-01 10:00:00".toList)] :=
  zone_passthrough sampleOptions "t".toList
    [⟨"ts".toList, [], "timestamp with time zone".toList⟩]
    (sampleTable [⟨"ts".toList, [], "timestamp with time zone".toList⟩]
      (some "2020-01-01 10:00:00".toList)) 0 0 false
    ⟨"ts".toList, [], "timestamp with time zone".toList⟩ "2020-01-01 10:00:00".toList
    rfl (by decide) (Or.inl (by decide)) rfl (by decide) (by decide) (by decide)

/-- C10: a cell that is not handled as a large object and whose source value
is NULL is bound as NULL, whatever the sets the column is in; a non-NULL
value of a column that is neither zone-affected nor a timestamp column, and
that is neither "infinity" nor "-infinity", is bound as text equal to the raw
value. -/
theorem null_and_verbatim_binding (o : Options) (tableName : List Char)
    (rows : List ColumnRow) (t : TableReply) (i j : Nat) (haveFunction : Bool)
    (hplain : j ∉ (rowSets o (columnLoop tableName o.pgTimezone rows)).largeObjectColumns) :
    (t.cell i j = none →
      (cellBody (rowSets o (columnLoop tableName o.pgTimezone rows)) t i j haveFunction).1
        = [Event.sqliteBind (j + 1) BindValue.null])
    ∧ ∀ (r : ColumnRow) (v : List Char), rows[j]? = some r → t.cell i j = some v →
        ¬ "with time zone".toList <:+: normalizeType r.colType →
        ¬ "without time zone".toList <:+: normalizeType r.colType →
        ¬ "timestamp".toList <:+: normalizeType r.colType →
        v ≠ "infinity".toList → v ≠ "-infinity".toList →
        (cellBody (rowSets o (columnLoop tableName o.pgTimezone rows)) t i j haveFunction).1
          = [Event.sqliteBind (j + 1) (BindValue.text v)] := by
  rw [cellBody_plain _ _ _ _ _ hplain]
  constructor
  · intro hc
    rw [hc, plainCell_rest _ _ _ none (fun _ => rfl)]
    rw [if_neg (by decide), if_neg (by decide)]
    rfl
  · intro r v hcol hc h1 h2 _ hinf hminf
    have hz := rowSets_timeZone o tableName rows j r hcol
    rw [hc, plainCell_rest _ _ _ (some v) (fun h => absurd (hz.mp h) (by tauto))]
    have h1 : PQgetvalue (some v) = v := rfl
    rw [h1, if_neg hinf, if_neg hminf, if_neg (by simp [PQgetisnull])]

/-- C10, on a NULL cell and on the value "abc" of a column `text`. -/
theorem null_and_verbatim_binding_witness :
    (cellBody (rowSets sampleOptions (columnLoop "t".toList sampleOptions.pgTimezone
        [⟨"c".toList, [], "text".toList⟩]))
      (sampleTable [⟨"c".toList, [], "text".toList⟩] none) 0 0 false).1
      = [Event.sqliteBind 1 BindValue.null]
    ∧ (cellBody (rowSets sampleOptions (columnLoop "t".toList sampleOptions.pgTimezone
        [⟨"c".toList, [], "text".toList⟩]))
      (sampleTable [⟨"c".toList, [], "text".toList⟩] (some "abc".toList)) 0 0 false).1
      = [Event.sqliteBind 1 (BindValue.text "abc".toList)] :=
  ⟨(null_and_verbatim_binding sampleOptions "t".toList [⟨"c".toList, [], "text".toList⟩]
      (sampleTable [⟨"c".toList, [], "text".toList⟩] none) 0 0 false (by decide)).1 rfl,
    (null_and_verbatim_binding sampleOptions "t".toList [⟨"c".toList, [], "text".toList⟩]
      (sampleTable [⟨"c".toList, [], "text".toList⟩] (some "abc".toList)) 0 0 false
      (by decide)).2 ⟨"c".toList, [], "text".toList⟩ "abc".toList rfl rfl
      (by decide) (by decide) (by decide) (by decide) (by decide)⟩

/-! ## Lemmas on the binds of a row -/

theorem bindIndices_append (a b : List Event) :
    bindIndices (a ++ b) = bindIndices a ++ bindIndices b := by
  induction a with
  | nil => rfl
  | cons e es ih => cases e <;> simp [bindIndices, ih]

theorem bindIndices_probe (r : LOReply) (haveFunction : Bool) (oid : Int) :
    bindIndices (getLargeObjectSize_v2 r haveFunction oid).1 = [] := by
  unfold getLargeObjectSize_v2
  split_ifs <;> simp [bindIndices]

theorem largeObjectCell_binds (r : LOReply) (bindRet : Int) (j : Nat) (value : List Char)
    (haveFunction : Bool) :
    bindIndices (largeObjectCell r bindRet j value haveFunction).1 = [j + 1]
      ∨ (bindIndices (largeObjectCell r bindRet j value haveFunction).1 = []
        ∧ ∃ code, (largeObjectCell r bindRet j value haveFunction).2 = Except.error code) := by
  unfold largeObjectCell
  simp only []
  split_ifs
  · right; simp [bindIndices_append, bindIndices_probe, bindIndices]
  · right; simp [bindIndices_append, bindIndices_probe, bindIndices]
  · right; simp [bindIndices_append, bindIndices_probe, bindIndices]
  · right; simp [bindIndices_append, bindIndices_probe, bindIndices]
  · left; simp [bindIndices_append, bindIndices_probe, bindIndices]

theorem cellBody_binds (sets : ColumnSets) (t : TableReply) (i j : Nat) (haveFunction : Bool) :
    bindIndices (cellBody sets t i j haveFunction).1 = [j + 1]
      ∨ (bindIndices (cellBody sets t i j haveFunction).1 = []
        ∧ ∃ code, (cellBody sets t i j haveFunction).2 = Except.error code) := by
  by_cases hlo : j ∈ sets.largeObjectColumns
  · have h := largeObjectCell_binds (t.lo i j) (t.bindRet i j) j (PQgetvalue (t.cell i j))
      haveFunction
    simp only [cellBody, hlo, if_true]
    rcases hc : largeObjectCell (t.lo i j) (t.bindRet i j) j (PQgetvalue (t.cell i j))
      haveFunction with ⟨events, res⟩
    rw [hc] at h
    cases res with
    | error code => simpa using h
    | ok x =>
      obtain ⟨ret2, have2⟩ := x
      simp only [reduceCtorEq, exists_false, and_false, or_false] at h
      simp only []
      split_ifs
      · left; exact h
      · left; exact h
  · rw [cellBody_plain _ _ _ _ _ hlo]
    obtain ⟨v, hv⟩ := plainCell_single sets.timeZoneColumns sets.timeStampColumns j (t.cell i j)
    left; rw [hv]; rfl

theorem cellLoop_binds (sets : ColumnSets) (t : TableReply) (i : Nat) :
    ∀ (remaining j : Nat) (haveFunction : Bool),
      ∃ m, m ≤ remaining
        ∧ bindIndices (cellLoop sets t i remaining j haveFunction).1
          = (List.range m).map (· + (j + 1))
        ∧ ∀ have2, (cellLoop sets t i remaining j haveFunction).2 = Except.ok have2 →
            m = remaining := by
  intro remaining
  induction remaining with
  | zero => intro j hf; exact ⟨0, le_refl _, by simp [cellLoop, bindIndices], fun _ _ => rfl⟩
  | succ n ih =>
    intro j hf
    have hb := cellBody_binds sets t i j hf
    rcases hc : cellBody sets t i j hf with ⟨events, res⟩
    rw [hc] at hb
    cases res with
    | error code =>
      simp only [cellLoop, hc]
      rcases hb with hb | ⟨hb, _⟩
      · exact ⟨1, by omega, by rw [hb]; simp [List.range_succ], by intro _ h; cases h⟩
      · exact ⟨0, by omega, by simpa using hb, by intro _ h; cases h⟩
    | ok have2 =>
      simp only [cellLoop, hc]
      simp only [reduceCtorEq, exists_false, and_false, or_false] at hb
      obtain ⟨m, hm, hbind, hok⟩ := ih (j + 1) have2
      refine ⟨m + 1, by omega, ?_, ?_⟩
      · rw [bindIndices_append, hb, hbind, List.range_succ_eq_map]
        simp only [List.map_cons, List.map_map, zero_add, List.singleton_append, List.cons.injEq,
          true_and]
        apply List.map_congr_left
        intro a _
        simp only [Function.comp_apply]
        omega
      · intro h2 hres
        rw [hok h2 hres]

/-! ## Lemmas on the value bound for a cell -/

theorem plainCell_converted (timeZoneColumns timeStampColumns : List Nat) (j : Nat)
    (cell : Option (List Char)) :
    plainCell timeZoneColumns timeStampColumns j cell
      = [Event.sqliteBind (j + 1)
          (convertedCell (decide (j ∈ timeZoneColumns)) (decide (j ∈ timeStampColumns))
            cell)] := by
  cases cell with
  | none =>
    rw [plainCell_rest _ _ _ none (fun _ => rfl), if_neg (by decide), if_neg (by decide)]
    rfl
  | some v =>
    by_cases hz : j ∈ timeZoneColumns ∧ '+' ∈ v
    · obtain ⟨p, hp⟩ : ∃ p, strrchr v '+' = some p := by
        cases h : strrchr v '+' with
        | none => exact absurd hz.2 ((strrchr_eq_none_iff v '+').mp h)
        | some p => exact ⟨p, rfl⟩
      have hcond : decide (j ∈ timeZoneColumns) = true ∧ '+' ∈ v :=
        ⟨decide_eq_true hz.1, hz.2⟩
      rw [plainCell_zone _ _ _ (some v) p hz.1 hp]
      simp only [convertedCell, if_pos hcond, beforeLast, hp]
      rfl
    · have hno : j ∈ timeZoneColumns → strrchr (PQgetvalue (some v)) '+' = none :=
        fun h => (strrchr_eq_none_iff v '+').mpr (fun hp => hz ⟨h, hp⟩)
      have hcond : ¬ (decide (j ∈ timeZoneColumns) = true ∧ '+' ∈ v) :=
        fun h => hz ⟨of_decide_eq_true h.1, h.2⟩
      rw [plainCell_rest _ _ _ (some v) hno]
      have hv : PQgetvalue (some v) = v := rfl
      have hn : ¬ (PQgetisnull (some v) = true) := by simp [PQgetisnull]
      simp only [convertedCell, if_neg hcond, hv, if_neg hn]
      generalize "infinity".toList = inf
      generalize "-infinity".toList = minf
      generalize "9999-12-31 12:00:00".toList = a
      generalize "0000-00-00 12:00:00".toList = b
      generalize "9e999".toList = c
      generalize "-9e999".toList = d
      by_cases h2 : j ∈ timeStampColumns <;> simp [h2]

theorem probe_no_bind (r : LOReply) (haveFunction : Bool) (oid : Int) (idx : Nat)
    (v : BindValue) : Event.sqliteBind idx v ∉ (getLargeObjectSize_v2 r haveFunction oid).1 := by
  unfold getLargeObjectSize_v2
  split_ifs <;> simp

theorem probe_no_open (r : LOReply) (haveFunction : Bool) (oid : Int) (x : Nat) :
    Event.loOpen x ∉ (getLargeObjectSize_v2 r haveFunction oid).1 := by
  unfold getLargeObjectSize_v2
  split_ifs <;> simp

theorem probe_size (r : LOReply) (haveFunction : Bool) (oid : Int) :
    (getLargeObjectSize_v2 r haveFunction oid).2.1 = SIZE_MAX
      ∨ (getLargeObjectSize_v2 r haveFunction oid).2.1 = toSizeT (atol r.sizeValue) := by
  unfold getLargeObjectSize_v2
  split_ifs <;> simp

theorem largeObjectCell_bind_value (r : LOReply) (bindRet : Int) (j : Nat)
    (value : List Char) (haveFunction : Bool) (idx : Nat) (v : BindValue)
    (h : Event.sqliteBind idx v ∈ (largeObjectCell r bindRet j value haveFunction).1) :
    idx = j + 1
      ∧ v = BindValue.blob r.readData (wrap32 (toSizeT (atol r.sizeValue)))
      ∧ Event.loOpen (toOid (atoi value))
        ∈ (largeObjectCell r bindRet j value haveFunction).1 := by
  have hb := probe_no_bind r haveFunction (atoi value) idx v
  have hs := probe_size r haveFunction (atoi value)
  unfold largeObjectCell at h ⊢
  simp only [] at h ⊢
  generalize getLargeObjectSize_v2 r haveFunction (atoi value) = probe at h hb hs ⊢
  by_cases h0 : probe.2.1 = 0
  · rw [if_pos h0] at h
    simp [hb] at h
  · rw [if_neg h0] at h ⊢
    by_cases h1 : probe.2.1 > PTRDIFF_MAX ∨ r.allocOk = false
    · rw [if_pos h1] at h
      simp [hb] at h
    · rw [if_neg h1] at h ⊢
      have hsize : probe.2.1 = toSizeT (atol r.sizeValue) := by
        rcases hs with hs | hs
        · exact absurd (Or.inl (by rw [hs]; decide)) h1
        · exact hs
      by_cases h2 : r.closeRet ≠ 0
      · rw [if_pos h2] at h
        split_ifs at h <;> simp [hb] at h
      · rw [if_neg h2] at h ⊢
        simp only [List.mem_append, hb, List.mem_cons, reduceCtorEq, List.mem_singleton,
          Event.sqliteBind.injEq, List.not_mem_nil, or_false, false_or] at h
        refine ⟨h.1, ?_, ?_⟩
        · rw [h.2, hsize]
        · simp

theorem cellBody_largeObject_events (sets : ColumnSets) (t : TableReply) (i j : Nat)
    (haveFunction : Bool) (hlo : j ∈ sets.largeObjectColumns) :
    (cellBody sets t i j haveFunction).1
      = (largeObjectCell (t.lo i j) (t.bindRet i j) j (PQgetvalue (t.cell i j))
          haveFunction).1 := by
  simp only [cellBody, hlo, if_true]
  rcases largeObjectCell (t.lo i j) (t.bindRet i j) j (PQgetvalue (t.cell i j))
    haveFunction with ⟨events, res⟩
  cases res with
  | error code => rfl
  | ok x => simp only []; split_ifs <;> rfl

theorem cellBody_bind_value (sets : ColumnSets) (t : TableReply) (i j : Nat)
    (haveFunction : Bool) (idx : Nat) (v : BindValue)
    (h : Event.sqliteBind idx v ∈ (cellBody sets t i j haveFunction).1) :
    idx = j + 1
      ∧ ((j ∉ sets.largeObjectColumns
          ∧ v = convertedCell (decide (j ∈ sets.timeZoneColumns))
              (decide (j ∈ sets.timeStampColumns)) (t.cell i j))
        ∨ (j ∈ sets.largeObjectColumns
          ∧ v = BindValue.blob (t.lo i j).readData
              (wrap32 (toSizeT (atol (t.lo i j).sizeValue)))
          ∧ Event.loOpen (toOid (atoi (PQgetvalue (t.cell i j))))
            ∈ (cellBody sets t i j haveFunction).1)) := by
  by_cases hlo : j ∈ sets.largeObjectColumns
  · rw [cellBody_largeObject_events _ _ _ _ _ hlo] at h ⊢
    obtain ⟨h1, h2, h3⟩ := largeObjectCell_bind_value _ _ _ _ _ _ _ h
    exact ⟨h1, Or.inr ⟨hlo, h2, h3⟩⟩
  · rw [cellBody_plain _ _ _ _ _ hlo, plainCell_converted] at h
    simp only [List.mem_singleton, Event.sqliteBind.injEq] at h
    exact ⟨h.1, Or.inl ⟨hlo, h.2⟩⟩

theorem cellLoop_bind_value (sets : ColumnSets) (t : TableReply) (i : Nat) :
    ∀ (remaining first : Nat) (haveFunction : Bool) (idx : Nat) (v : BindValue),
      Event.sqliteBind idx v ∈ (cellLoop sets t i remaining first haveFunction).1 →
      ∃ j, first ≤ j ∧ j < first + remaining ∧ idx = j + 1
        ∧ ((j ∉ sets.largeObjectColumns
            ∧ v = convertedCell (decide (j ∈ sets.timeZoneColumns))
                (decide (j ∈ sets.timeStampColumns)) (t.cell i j))
          ∨ (j ∈ sets.largeObjectColumns
            ∧ v = BindValue.blob (t.lo i j).readData
                (wrap32 (toSizeT (atol (t.lo i j).sizeValue)))
            ∧ Event.loOpen (toOid (atoi (PQgetvalue (t.cell i j))))
              ∈ (cellLoop sets t i remaining first haveFunction).1)) := by
  intro remaining
  induction remaining with
  | zero => intro first hf idx v h; simp [cellLoop] at h
  | succ n ih =>
    intro first hf idx v h
    have hb := cellBody_bind_value sets t i first hf idx v
    rcases hc : cellBody sets t i first hf with ⟨events, res⟩
    rw [hc] at hb
    cases res with
    | error code =>
      simp only [cellLoop, hc] at h ⊢
      obtain ⟨h1, h2⟩ := hb h
      exact ⟨first, le_refl _, by omega, h1, h2⟩
    | ok have2 =>
      simp only [cellLoop, hc, List.mem_append] at h ⊢
      rcases h with h | h
      · obtain ⟨h1, h2⟩ := hb h
        refine ⟨first, le_refl _, by omega, h1, ?_⟩
        rcases h2 with h2 | ⟨h2, h3, h4⟩
        · exact Or.inl h2
        · exact Or.inr ⟨h2, h3, Or.inl h4⟩
      · obtain ⟨j, hj1, hj2, hj3, hj4⟩ := ih (first + 1) have2 idx v h
        refine ⟨j, by omega, by omega, hj3, ?_⟩
        rcases hj4 with h2 | ⟨h2, h3, h4⟩
        · exact Or.inl h2
        · exact Or.inr ⟨h2, h3, Or.inr h4⟩

/-! ## Column order: claim C1 -/

/-- C1: for every table and every list of catalog rows, the CREATE TABLE
statement lists the column definitions of the rows in their order, each
definition starting with the name of its row; the projection of the data query
lists, in the same order, the name of each row, possibly followed by the
zone-conversion suffix; the INSERT statement has one placeholder per row; and
in every fetched row the binds are made at placeholders 1, 2, ... in the order
of the cells, cell j at placeholder j+1, up to the last cell when the row is
completed.  What placeholder j+1 receives is cell j of the row: for a column
that is not a large object, the converted value of cell j; for a large-object
column, the buffer read for the object that cell j names, which is the object
opened. -/
theorem column_order_agrees (o : Options) (tableName : List Char) (rows : List ColumnRow) :
    (createTableQuery (columnLoop tableName o.pgTimezone rows)
        = "CREATE TABLE ".toList ++ tableName ++ " (".toList
          ++ ", ".toList.intercalate (rows.map columnDefinition) ++ ");".toList
      ∧ ∀ r ∈ rows, (r.colName ++ " ".toList) <+: columnDefinition r)
    ∧ (selectQuery o.useSelectOnly tableName
          (columnLoop tableName o.pgTimezone rows).colNamesForPqSelect
        = "SELECT ".toList
          ++ ",".toList.intercalate (rows.map (projectionEntry o.pgTimezone))
          ++ " FROM ".toList ++ (if o.useSelectOnly then " ONLY ".toList else [])
          ++ "   ".toList ++ tableName ++ ";".toList
      ∧ ∀ r ∈ rows, projectionEntry o.pgTimezone r = r.colName
          ∨ projectionEntry o.pgTimezone r
            = r.colName ++ " at time zone '".toList ++ o.pgTimezone ++ "'".toList)
    ∧ insertQuery (columnLoop tableName o.pgTimezone rows)
        = "INSERT INTO ".toList ++ tableName ++ " VALUES (".toList
          ++ ", ".toList.intercalate (List.replicate rows.length "?".toList) ++ ");".toList
    ∧ (∀ (t : TableReply) (i : Nat) (haveFunction : Bool),
        (∀ j, bindIndices (cellBody (rowSets o (columnLoop tableName o.pgTimezone rows))
            t i j haveFunction).1 = [j + 1]
          ∨ bindIndices (cellBody (rowSets o (columnLoop tableName o.pgTimezone rows))
            t i j haveFunction).1 = [])
        ∧ ∃ m, m ≤ t.colCount
          ∧ bindIndices (cellLoop (rowSets o (columnLoop tableName o.pgTimezone rows))
              t i t.colCount 0 haveFunction).1 = (List.range m).map (· + 1)
          ∧ ∀ have2, (cellLoop (rowSets o (columnLoop tableName o.pgTimezone rows))
              t i t.colCount 0 haveFunction).2 = Except.ok have2 → m = t.colCount)
    ∧ (∀ (t : TableReply) (i j : Nat) (haveFunction : Bool),
        j ∉ (rowSets o (columnLoop tableName o.pgTimezone rows)).largeObjectColumns →
        (cellBody (rowSets o (columnLoop tableName o.pgTimezone rows)) t i j haveFunction).1
          = [Event.sqliteBind (j + 1)
              (convertedCell
                (decide (j ∈ (rowSets o
                  (columnLoop tableName o.pgTimezone rows)).timeZoneColumns))
                (decide (j ∈ (rowSets o
                  (columnLoop tableName o.pgTimezone rows)).timeStampColumns))
                (t.cell i j))])
    ∧ ∀ (t : TableReply) (i : Nat) (haveFunction : Bool) (idx : Nat) (v : BindValue),
        Event.sqliteBind idx v
          ∈ (cellLoop (rowSets o (columnLoop tableName o.pgTimezone rows))
              t i t.colCount 0 haveFunction).1 →
        ∃ j, j < t.colCount ∧ idx = j + 1
          ∧ ((j ∉ (rowSets o (columnLoop tableName o.pgTimezone rows)).largeObjectColumns
              ∧ v = convertedCell
                  (decide (j ∈ (rowSets o
                    (columnLoop tableName o.pgTimezone rows)).timeZoneColumns))
                  (decide (j ∈ (rowSets o
                    (columnLoop tableName o.pgTimezone rows)).timeStampColumns))
                  (t.cell i j))
            ∨ (j ∈ (rowSets o (columnLoop tableName o.pgTimezone rows)).largeObjectColumns
              ∧ v = BindValue.blob (t.lo i j).readData
                  (wrap32 (toSizeT (atol (t.lo i j).sizeValue)))
              ∧ Event.loOpen (toOid (atoi (PQgetvalue (t.cell i j))))
                ∈ (cellLoop (rowSets o (columnLoop tableName o.pgTimezone rows))
                    t i t.colCount 0 haveFunction).1)) := by
  refine ⟨⟨?_, ?_⟩, ⟨?_, ?_⟩, ?_, ?_, ?_, ?_⟩
  · rw [createTableQuery, columnLoop, columnLoopFrom_create _ _ _ _ _ _ (by simp)]
    rfl
  · intro r _
    simp only [columnDefinition]
    exact (List.prefix_append _ _).trans (List.prefix_append _ _)
  · rw [selectQuery, columnLoop, columnLoopFrom_names, joinProjection_eq]
    rfl
  · intro r _
    unfold projectionEntry zoneProjection
    split_ifs
    · right; simp only [List.append_assoc]
    · left; rfl
  · rw [insertQuery, columnLoop, columnLoopFrom_insert _ _ _ _ _ _ (by simp)]
    rfl
  · intro t i hf
    constructor
    · intro j
      rcases cellBody_binds (rowSets o (columnLoop tableName o.pgTimezone rows)) t i j hf
        with h | ⟨h, _⟩
      · exact Or.inl h
      · exact Or.inr h
    · exact cellLoop_binds _ t i t.colCount 0 hf
  · intro t i j hf hplain
    rw [cellBody_plain _ _ _ _ _ hplain, plainCell_converted]
  · intro t i hf idx v h
    obtain ⟨j, _, hj, hidx, hv⟩ := cellLoop_bind_value _ t i t.colCount 0 hf idx v h
    exact ⟨j, by omega, hidx, hv⟩

/-- C1, on the row `(7, "abc")` of a table `t (id integer, c text)`: the two
binds of the row are cell 0 at placeholder 1 and cell 1 at placeholder 2. -/
theorem column_order_agrees_witness :
    (cellLoop (rowSets sampleOptions (columnLoop "t".toList sampleOptions.pgTimezone
        [⟨"id".toList, [], "integer".toList⟩, ⟨"c".toList, [], "text".toList⟩]))
      sampleTwoColumnTable 0 2 0 false).1
      = [Event.sqliteBind 1 (BindValue.text "7".toList),
        Event.sqliteBind 2 (BindValue.text "abc".toList)] := by
  have h0 := (column_order_agrees sampleOptions "t".toList
    [⟨"id".toList, [], "integer".toList⟩, ⟨"c".toList, [], "text".toList⟩]).2.2.2.2.1
    sampleTwoColumnTable 0 0 false (by decide)
  have h1 := (column_order_agrees sampleOptions "t".toList
    [⟨"id".toList, [], "integer".toList⟩, ⟨"c".toList, [], "text".toList⟩]).2.2.2.2.1
    sampleTwoColumnTable 0 1 false (by decide)
  simp only [cellLoop, h0, h1]
  decide

/-! ## Lemmas on the trace of a table -/

theorem probe_no_exec (r : LOReply) (haveFunction : Bool) (oid : Int) (sql : List Char) :
    Event.sqliteExec sql ∉ (getLargeObjectSize_v2 r haveFunction oid).1 := by
  unfold getLargeObjectSize_v2
  split_ifs <;> simp

theorem cellBody_no_exec (sets : ColumnSets) (t : TableReply) (i j : Nat) (haveFunction : Bool)
    (sql : List Char) : Event.sqliteExec sql ∉ (cellBody sets t i j haveFunction).1 := by
  by_cases hlo : j ∈ sets.largeObjectColumns
  · have hp := probe_no_exec (t.lo i j) haveFunction (atoi (PQgetvalue (t.cell i j))) sql
    simp only [cellBody, hlo, if_true, largeObjectCell]
    split_ifs <;> simp only [] <;> (try split_ifs) <;> simp [hp]
  · rw [cellBody_plain _ _ _ _ _ hlo]
    obtain ⟨v, hv⟩ := plainCell_single sets.timeZoneColumns sets.timeStampColumns j (t.cell i j)
    rw [hv]; simp

theorem cellLoop_no_exec (sets : ColumnSets) (t : TableReply) (i : Nat) (sql : List Char) :
    ∀ (remaining j : Nat) (haveFunction : Bool),
      Event.sqliteExec sql ∉ (cellLoop sets t i remaining j haveFunction).1 := by
  intro remaining
  induction remaining with
  | zero => intro j hf; simp [cellLoop]
  | succ n ih =>
    intro j hf
    have hb := cellBody_no_exec sets t i j hf sql
    rcases hc : cellBody sets t i j hf with ⟨events, res⟩
    rw [hc] at hb
    cases res with
    | error code => simpa [cellLoop, hc] using hb
    | ok have2 =>
      simp only [cellLoop, hc, List.mem_append, not_or]
      exact ⟨hb, ih (j + 1) have2⟩

theorem rowBody_exec (sets : ColumnSets) (t : TableReply) (i : Nat) (haveFunction : Bool)
    (sql : List Char) (h : Event.sqliteExec sql ∈ (rowBody sets t i haveFunction).1) :
    sql = "END TRANSACTION;".toList ∨ sql = "BEGIN TRANSACTION;".toList := by
  have hb := cellLoop_no_exec sets t i sql t.colCount 0 haveFunction
  unfold rowBody at h
  rcases hc : cellLoop sets t i t.colCount 0 haveFunction with ⟨events, res⟩
  rw [hc] at hb h
  cases res with
  | error code => exact absurd h hb
  | ok have2 =>
    simp only [] at h
    split_ifs at h
    · simp [hb] at h
    · simp only [periodicCommit, List.mem_append, hb, false_or] at h
      split_ifs at h
      · simpa using h
      · simp at h

theorem rowLoop_exec (sets : ColumnSets) (t : TableReply) (sql : List Char) :
    ∀ (remaining i : Nat) (haveFunction : Bool),
      Event.sqliteExec sql ∈ (rowLoop sets t remaining i haveFunction).1 →
      sql = "END TRANSACTION;".toList ∨ sql = "BEGIN TRANSACTION;".toList := by
  intro remaining
  induction remaining with
  | zero => intro i hf h; simp [rowLoop] at h
  | succ n ih =>
    intro i hf h
    have hb := rowBody_exec sets t i hf sql
    unfold rowLoop at h
    rcases hc : rowBody sets t i hf with ⟨events, res⟩
    rw [hc] at hb h
    cases res with
    | error code => exact hb h
    | ok have2 =>
      simp only [List.mem_append] at h
      rcases h with h | h
      · exact hb h
      · exact ih (i + 1) have2 h

theorem split_after_prefix {α : Type} (a b pre post : List α) (x : α)
    (h : a ++ b = pre ++ x :: post) (hx : x ∉ a) :
    ∃ mid, pre = a ++ mid ∧ b = mid ++ x :: post := by
  rcases List.append_eq_append_iff.mp h with ⟨mid, h1, h2⟩ | ⟨mid, h1, h2⟩
  · exact ⟨mid, h1, h2⟩
  · cases mid with
    | nil => exact ⟨[], by simpa using h1.symm, by simpa using h2.symm⟩
    | cons y ys =>
      simp only [List.cons_append, List.cons.injEq] at h2
      exact absurd (by rw [h1, h2.1]; simp) hx

theorem transferTable_trace (o : Options) (t : TableReply) (st : ColumnLoopState)
    (haveFunction : Bool) :
    Event.sqliteStep ∉ (transferTable o t st haveFunction).1
    ∨ ∃ head rest, (transferTable o t st haveFunction).1 = head ++ rest
        ∧ Event.sqliteStep ∉ head
        ∧ (∀ ix ∈ t.indexes, Event.sqliteExec (createIndexQuery ix) ∈ head)
        ∧ ∀ sql, Event.sqliteExec sql ∈ rest →
            sql = "END TRANSACTION;".toList ∨ sql = "BEGIN TRANSACTION;".toList := by
  have hrow := fun sql => rowLoop_exec (rowSets o st) t sql t.rowCount 0 haveFunction
  unfold transferTable
  simp only []
  rcases hr : rowLoop (rowSets o st) t t.rowCount 0 haveFunction with ⟨events, res⟩
  rw [hr] at hrow
  have hhead : Event.sqliteStep ∉ [Event.pgExec "BEGIN".toList]
      ++ [Event.pgExec (sizeQuery o.useSelectOnly t.tableName)]
      ++ [Event.pgExec (indexesQuery t.tableName)] ++ indexEvents t
      ++ [Event.pgExec (selectQuery o.useSelectOnly t.tableName st.colNamesForPqSelect)] := by
    simp [indexEvents]
  have hindex : ∀ ix ∈ t.indexes, Event.sqliteExec (createIndexQuery ix)
      ∈ [Event.pgExec "BEGIN".toList]
      ++ [Event.pgExec (sizeQuery o.useSelectOnly t.tableName)]
      ++ [Event.pgExec (indexesQuery t.tableName)] ++ indexEvents t
      ++ [Event.pgExec (selectQuery o.useSelectOnly t.tableName st.colNamesForPqSelect)] := by
    intro ix hix
    simp only [indexEvents, List.mem_append, List.mem_map]
    exact Or.inl (Or.inr ⟨ix, hix, rfl⟩)
  cases res with
  | error code =>
    simp only []
    split_ifs
    · left; simp
    · left; simp
    · left; simp
    · left; simp
    · left; simp
    · left; simp [indexEvents]
    · right
      exact ⟨_, events, rfl, hhead, hindex, fun sql h => hrow sql h⟩
  | ok have2 =>
    simp only []
    split_ifs
    · left; simp
    · left; simp
    · left; simp
    · left; simp
    · left; simp
    · left; simp [indexEvents]
    · right
      refine ⟨_, events ++ [Event.pgExec "COMMIT".toList], by simp [List.append_assoc],
        hhead, hindex, ?_⟩
      intro sql h
      simp only [List.mem_append, List.mem_singleton, reduceCtorEq, or_false] at h
      exact hrow sql h
    · right
      refine ⟨_, events ++ [Event.pgExec "COMMIT".toList, Event.sqliteFinalize],
        by simp [List.append_assoc], hhead, hindex, ?_⟩
      intro sql h
      simp only [List.mem_append, List.mem_cons, reduceCtorEq, List.mem_singleton, or_self,
        or_false, List.not_mem_nil] at h
      exact hrow sql h

theorem processTable_trace (o : Options) (t : TableReply) (haveFunction : Bool) :
    Event.sqliteStep ∉ (processTable o t haveFunction).1
    ∨ ∃ head rest, (processTable o t haveFunction).1 = head ++ rest
        ∧ Event.sqliteStep ∉ head
        ∧ Event.sqliteExec (createTableQuery (mappedColumns o t)) ∈ head
        ∧ (∀ q ∈ (mappedColumns o t).sqliteTriggers, Event.sqliteExec q ∈ head)
        ∧ (∀ ix ∈ t.indexes, Event.sqliteExec (createIndexQuery ix) ∈ head)
        ∧ ∀ sql, Event.sqliteExec sql ∈ rest →
            sql = "END TRANSACTION;".toList ∨ sql = "BEGIN TRANSACTION;".toList := by
  have hschema : Event.sqliteStep ∉ [Event.pgExec (columnsQuery t.tableName)]
      ++ schemaEvents (mappedColumns o t) := by
    simp [schemaEvents]
  unfold processTable
  simp only []
  split_ifs
  · left; simp
  · left; simp
  · left; simp
  · left; exact hschema
  · rcases transferTable_trace o t (mappedColumns o t) haveFunction with h | h
    · left
      simp only [List.mem_append, not_or]
      exact ⟨by simpa using hschema, h⟩
    · right
      obtain ⟨head, rest, h1, h2, h3, h4⟩ := h
      refine ⟨[Event.pgExec (columnsQuery t.tableName)] ++ schemaEvents (mappedColumns o t)
        ++ head, rest, by rw [h1]; simp [List.append_assoc], ?_, ?_, ?_, ?_, h4⟩
      · simp only [List.mem_append, not_or]
        exact ⟨by simpa using hschema, h2⟩
      · simp [schemaEvents]
      · intro q hq
        simp only [schemaEvents, List.mem_append, List.mem_map]
        exact Or.inl (Or.inr (Or.inl (Or.inr ⟨q, hq, rfl⟩)))
      · intro ix hix
        exact List.mem_append_right _ (h3 ix hix)

/-! ## Schema before rows: claim C2 -/

/-- C2: in the calls made for one table, every row insert (`sqlite3_step`) comes
after the CREATE TABLE statement of the table, after each of its trigger
statements and after each of its CREATE INDEX statements; the only statements
executed on the target after a row insert are END TRANSACTION and BEGIN
TRANSACTION, so no schema statement follows a row. -/
theorem schema_before_rows (o : Options) (t : TableReply) (haveFunction : Bool)
    (pre post : List Event)
    (hsplit : (processTable o t haveFunction).1 = pre ++ Event.sqliteStep :: post) :
    Event.sqliteExec (createTableQuery (mappedColumns o t)) ∈ pre
    ∧ (∀ q ∈ (mappedColumns o t).sqliteTriggers, Event.sqliteExec q ∈ pre)
    ∧ (∀ ix ∈ t.indexes, Event.sqliteExec (createIndexQuery ix) ∈ pre)
    ∧ ∀ sql, Event.sqliteExec sql ∈ post →
        sql = "END TRANSACTION;".toList ∨ sql = "BEGIN TRANSACTION;".toList := by
  rcases processTable_trace o t haveFunction with h | ⟨head, rest, h1, h2, h3, h4, h5, h6⟩
  · exact absurd (by rw [hsplit]; simp) h
  · rw [h1] at hsplit
    obtain ⟨mid, hpre, hrest⟩ := split_after_prefix head rest pre post Event.sqliteStep hsplit h2
    subst hpre
    refine ⟨List.mem_append_left _ h3, fun q hq => List.mem_append_left _ (h4 q hq),
      fun ix hix => List.mem_append_left _ (h5 ix hix), ?_⟩
    intro sql hsql
    apply h6 sql
    rw [hrest]
    simp [hsql]

/-- C2, on the table `sampleSerialTable`: its trace has the row insert at
position 10, after CREATE TABLE, the trigger and CREATE INDEX. -/
theorem schema_before_rows_witness :
    Event.sqliteExec "CREATE TABLE t (id integer);".toList
        ∈ List.take 10 (processTable sampleOptions sampleSerialTable false).1
    ∧ Event.sqliteExec (triggerQuery "t".toList "id".toList)
        ∈ List.take 10 (processTable sampleOptions sampleSerialTable false).1
    ∧ Event.sqliteExec "CREATE INDEX  't_pkey'  ON  't' (id);".toList
        ∈ List.take 10 (processTable sampleOptions sampleSerialTable false).1 :=
  ⟨(schema_before_rows sampleOptions sampleSerialTable false
      (List.take 10 (processTable sampleOptions sampleSerialTable false).1)
      (List.drop 11 (processTable sampleOptions sampleSerialTable false).1) (by decide)).1,
    (schema_before_rows sampleOptions sampleSerialTable false
      (List.take 10 (processTable sampleOptions sampleSerialTable false).1)
      (List.drop 11 (processTable sampleOptions sampleSerialTable false).1) (by decide)).2.1
      _ (by decide),
    (schema_before_rows sampleOptions sampleSerialTable false
      (List.take 10 (processTable sampleOptions sampleSerialTable false).1)
      (List.drop 11 (processTable sampleOptions sampleSerialTable false).1) (by decide)).2.2.1
      ⟨"t_pkey".toList, "t".toList, "id".toList⟩ (by decide)⟩

/-! ## No cast marker in an emitted default: claim C17 -/

theorem no_infix_before_first (d pat : List Char) (p : Nat) (h : find d pat = some p)
    (hpat : pat ≠ []) : ¬ pat <:+: d.take p := by
  rintro ⟨a, b, hab⟩
  obtain ⟨_, hmin⟩ := find_spec d pat p h
  have hlen : (a ++ pat ++ b).length ≤ p := by rw [hab]; exact List.length_take_le _ _
  have hpos : 0 < pat.length := List.length_pos.mpr hpat
  have hk : a.length < p := by
    simp only [List.length_append] at hlen
    omega
  apply hmin a.length hk
  have hd : d = a ++ (pat ++ (b ++ d.drop p)) := by
    calc d = d.take p ++ d.drop p := (List.take_append_drop p d).symm
      _ = a ++ (pat ++ (b ++ d.drop p)) := by rw [← hab]; simp [List.append_assoc]
  have hdrop : d.drop a.length = pat ++ (b ++ d.drop p) := by
    conv_lhs => rw [hd]
    exact List.drop_left _ _
  exact ⟨b ++ d.drop p, hdrop.symm⟩

theorem rewriteDefault_cases (d : List Char) :
    rewriteDefault d ∈ ["CURRENT_TIMESTAMP".toList, "'9999-12-31 12:00:00'".toList,
        "'0000-00-00 12:00:00'".toList, "9e999".toList, "-9e999".toList]
    ∨ ("::".toList <:+: d ∧ rewriteDefault d = beforeFirst "::".toList d)
    ∨ (¬ "::".toList <:+: d ∧ rewriteDefault d = d) := by
  unfold rewriteDefault
  split_ifs
  · left; exact List.mem_cons_self _ _
  · left; exact List.mem_cons_of_mem _ (List.mem_cons_self _ _)
  · left; exact List.mem_cons_of_mem _ (List.mem_cons_of_mem _ (List.mem_cons_self _ _))
  · left
    exact List.mem_cons_of_mem _ (List.mem_cons_of_mem _ (List.mem_cons_of_mem _
      (List.mem_cons_self _ _)))
  · left
    exact List.mem_cons_of_mem _ (List.mem_cons_of_mem _ (List.mem_cons_of_mem _
      (List.mem_cons_of_mem _ (List.mem_cons_self _ _))))
  · cases hf : find d "::".toList with
    | none => right; right; exact ⟨(find_eq_none_iff _ _).mp hf, rfl⟩
    | some p =>
      right; left
      refine ⟨(contains_iff _ _).mp (by unfold contains; rw [hf]; rfl), ?_⟩
      exact find_eq_some_iff_beforeFirst d _ p hf

theorem rewriteDefault_no_cast (d : List Char) : ¬ "::".toList <:+: rewriteDefault d := by
  unfold rewriteDefault
  split_ifs
  · decide
  · decide
  · decide
  · decide
  · decide
  · cases hf : find d "::".toList with
    | none => exact (find_eq_none_iff _ _).mp hf
    | some p => exact no_infix_before_first d _ p hf (by decide)

/-- C17: whatever the default expression and the type of the column, the
default the mapper emits does not contain "::"; it is empty, one of the five
replacement literals, the part of the input before its first "::", or an
input without "::". -/
theorem emitted_default_has_no_cast (tableName colName colType colDefault : List Char)
    (triggers : List (List Char)) :
    ¬ "::".toList <:+: (defaultBlock tableName colName colType colDefault triggers).1
    ∧ ((defaultBlock tableName colName colType colDefault triggers).1 = []
      ∨ (defaultBlock tableName colName colType colDefault triggers).1
          ∈ ["CURRENT_TIMESTAMP".toList, "'9999-12-31 12:00:00'".toList,
            "'0000-00-00 12:00:00'".toList, "9e999".toList, "-9e999".toList]
      ∨ ("::".toList <:+: colDefault
        ∧ (defaultBlock tableName colName colType colDefault triggers).1
          = beforeFirst "::".toList colDefault)
      ∨ (¬ "::".toList <:+: colDefault
        ∧ (defaultBlock tableName colName colType colDefault triggers).1 = colDefault)) := by
  by_cases hseq : "nextval(".toList <:+: colDefault ∧ "seq'::regclass)".toList <:+: colDefault
  · rw [defaultBlock_sequence _ _ _ _ _ hseq.1 hseq.2]
    exact ⟨(by decide : ¬ "::".toList <:+: ([] : List Char)), Or.inl rfl⟩
  · rw [defaultBlock_plain _ _ _ _ _ hseq]
    exact ⟨rewriteDefault_no_cast _, Or.inr (rewriteDefault_cases _)⟩

/-! ## Size ceiling, periodic commit and large objects at concrete inputs:
claims C11, C14, C15, C16 -/

/-- C11 on the code: with the size ceiling enabled, the table
`sampleOversizedTable`, reported with 2 GiB, gets its CREATE TABLE statement
and its trigger on the target before its size is asked for; what the skip
leaves out is the index query with the CREATE INDEX statement, the data query
and the inserts. -/
theorem oversized_table_still_created :
    sampleOptions.useMaxDumpSize = true
    ∧ sampleOversizedTable.tableSizeBytes > 1073741824
    ∧ (processTable sampleOptions sampleOversizedTable false).1
      = [Event.pgExec (columnsQuery "t".toList),
        Event.sqliteExec "CREATE TABLE t (id integer);".toList,
        Event.sqliteExec (triggerQuery "t".toList "id".toList),
        Event.sqlitePrepare "INSERT INTO t VALUES (?);".toList,
        Event.pgExec "BEGIN".toList,
        Event.pgExec (sizeQuery false "t".toList),
        Event.pgExec "COMMIT".toList] := by
  decide

/-- C14 on the code: in the table `sampleBigTable` of 200000 rows the target
transaction is committed and reopened right after the first row (row index
0) and right after row number 100001 (row index 100000), and not after row
number 100000 (row index 99999). -/
theorem commit_follows_row_index :
    (rowBody (rowSets sampleOptions (mappedColumns sampleOptions sampleBigTable))
        sampleBigTable 0 false).1
      = [Event.sqliteBind 1 (BindValue.text "abc".toList), Event.sqliteStep, Event.sqliteReset,
        Event.sqliteExec "END TRANSACTION;".toList, Event.sqliteExec "BEGIN TRANSACTION;".toList]
    ∧ (rowBody (rowSets sampleOptions (mappedColumns sampleOptions sampleBigTable))
        sampleBigTable 99999 false).1
      = [Event.sqliteBind 1 (BindValue.text "abc".toList), Event.sqliteStep, Event.sqliteReset]
    ∧ (rowBody (rowSets sampleOptions (mappedColumns sampleOptions sampleBigTable))
        sampleBigTable 100000 false).1
      = [Event.sqliteBind 1 (BindValue.text "abc".toList), Event.sqliteStep, Event.sqliteReset,
        Event.sqliteExec "END TRANSACTION;".toList,
        Event.sqliteExec "BEGIN TRANSACTION;".toList] := by
  decide

/-- C15 on the code: in three runs the helper is installed for the large
object of the first row and the run then ends with `return -1` without the
statement removing the helper: when the bind of the large object fails, when
the row insert fails, and when the catalog query of the next table fails. -/
theorem helper_left_installed :
    ((main sampleOptions (sampleRun [sampleLargeObjectTable sampleObject 1 101])).2 = -1
      ∧ Event.pgExec installQuery
        ∈ (main sampleOptions (sampleRun [sampleLargeObjectTable sampleObject 1 101])).1
      ∧ Event.pgExec dropQuery
        ∉ (main sampleOptions (sampleRun [sampleLargeObjectTable sampleObject 1 101])).1)
    ∧ ((main sampleOptions (sampleRun [sampleLargeObjectTable sampleObject 0 1])).2 = -1
      ∧ Event.pgExec installQuery
        ∈ (main sampleOptions (sampleRun [sampleLargeObjectTable sampleObject 0 1])).1
      ∧ Event.pgExec dropQuery
        ∉ (main sampleOptions (sampleRun [sampleLargeObjectTable sampleObject 0 1])).1)
    ∧ ((main sampleOptions
          (sampleRun [sampleLargeObjectTable sampleObject 0 101, sampleBrokenTable])).2 = -1
      ∧ Event.pgExec installQuery
        ∈ (main sampleOptions
          (sampleRun [sampleLargeObjectTable sampleObject 0 101, sampleBrokenTable])).1
      ∧ Event.pgExec dropQuery
        ∉ (main sampleOptions
          (sampleRun [sampleLargeObjectTable sampleObject 0 101, sampleBrokenTable])).1) := by
  decide

/-- C16 on the code: when the size probe of the large object 16385 is answered
with an error, the size returned is the largest value of `size_t`, which the
test against zero lets through: the object is opened and a buffer of that
size is requested, and the helper is not removed. -/
theorem failed_probe_not_caught :
    (getLargeObjectSize_v2 sampleFailedProbe false 16385).2.1 = 18446744073709551615
    ∧ (largeObjectCell sampleFailedProbe 0 0 "16385".toList false).1.take 4
      = [Event.pgExec installQuery, Event.pgExec (probeQuery 16385), Event.loOpen 16385,
        Event.allocBuffer 18446744073709551615]
    ∧ Event.pgExec dropQuery ∉ (largeObjectCell sampleFailedProbe 0 0 "16385".toList false).1 := by
  decide

/-! ## Lemmas on the size guard and on a table that is streamed -/

theorem processTable_child_skipped (o : Options) (t : TableReply) (haveFunction : Bool)
    (hchild : atoi t.isChild = 1) (hmode : o.useSelectOnly = false) :
    processTable o t haveFunction = ([], Except.ok haveFunction) := by
  unfold processTable
  simp [hchild, hmode]

theorem processTable_schema (o : Options) (t : TableReply) (haveFunction : Bool)
    (hchild : ¬ (atoi t.isChild = 1 ∧ o.useSelectOnly = false))
    (hcols : t.columnsStatus.accepted = true)
    (hshape : ¬ (t.columnsStatus = ExecStatus.tuplesOk ∧ t.columns ≠ []
      ∧ t.columnsNFields ≠ 3)) :
    ∃ rest, (processTable o t haveFunction).1
      = [Event.pgExec (columnsQuery t.tableName)] ++ schemaEvents (mappedColumns o t)
        ++ rest := by
  have hc : ¬ ((atoi t.isChild == 1 && !o.useSelectOnly) = true) := by
    simpa only [Bool.and_eq_true, beq_iff_eq, Bool.not_eq_true'] using hchild
  unfold processTable
  simp only [hc, if_false, hcols, Bool.not_true, Bool.false_eq_true, hshape]
  split_ifs
  · exact ⟨[], by simp⟩
  · exact ⟨_, rfl⟩

theorem processTable_at_guard (o : Options) (t : TableReply) (haveFunction : Bool)
    (h : reachesSizeGuard o t) :
    processTable o t haveFunction
      = ([Event.pgExec (columnsQuery t.tableName)] ++ schemaEvents (mappedColumns o t)
          ++ (transferTable o t (mappedColumns o t) haveFunction).1,
        (transferTable o t (mappedColumns o t) haveFunction).2) := by
  obtain ⟨hchild, hcols, hshape, hprep, _, _⟩ := h
  have hc : ¬ ((atoi t.isChild == 1 && !o.useSelectOnly) = true) := by
    simpa only [Bool.and_eq_true, beq_iff_eq, Bool.not_eq_true'] using hchild
  unfold processTable
  simp only [hc, if_false, hcols, Bool.not_true, Bool.false_eq_true, hshape, hprep, ne_eq,
    not_true_eq_false]

theorem transferTable_skip (o : Options) (t : TableReply) (st : ColumnLoopState)
    (haveFunction : Bool) (hbegin : t.beginStatus = ExecStatus.commandOk)
    (hsize : t.sizeStatus.accepted = true)
    (hskip : o.useMaxDumpSize = true ∧ t.tableSizeBytes > maxDumpSize) :
    (transferTable o t st haveFunction).1
      = [Event.pgExec "BEGIN".toList, Event.pgExec (sizeQuery o.useSelectOnly t.tableName),
        Event.pgExec "COMMIT".toList] := by
  unfold transferTable
  simp only [hbegin, ne_eq, not_true_eq_false, if_false, hsize, Bool.not_true,
    Bool.false_eq_true, hskip, and_self, if_true]
  split_ifs <;> rfl

theorem transferTable_noskip (o : Options) (t : TableReply) (st : ColumnLoopState)
    (haveFunction : Bool) (hbegin : t.beginStatus = ExecStatus.commandOk)
    (hsize : t.sizeStatus.accepted = true)
    (hskip : ¬ (o.useMaxDumpSize = true ∧ t.tableSizeBytes > maxDumpSize)) :
    ∃ rest, (transferTable o t st haveFunction).1
      = [Event.pgExec "BEGIN".toList, Event.pgExec (sizeQuery o.useSelectOnly t.tableName),
        Event.pgExec (indexesQuery t.tableName)] ++ rest := by
  unfold transferTable
  simp only [hbegin, ne_eq, not_true_eq_false, if_false, hsize, Bool.not_true,
    Bool.false_eq_true, hskip]
  rcases hr : rowLoop (rowSets o st) t t.rowCount 0 haveFunction with ⟨events, res⟩
  cases res with
  | error code =>
    simp only []
    split_ifs
    · exact ⟨[], by simp⟩
    · exact ⟨_, by simp [List.append_assoc]; rfl⟩
    · exact ⟨_, by simp [List.append_assoc]; rfl⟩
  | ok have2 =>
    simp only []
    split_ifs
    · exact ⟨[], by simp⟩
    · exact ⟨_, by simp [List.append_assoc]; rfl⟩
    · exact ⟨_, by simp [List.append_assoc]; rfl⟩
    · exact ⟨_, by simp [List.append_assoc]; rfl⟩

theorem transferTable_stream (o : Options) (t : TableReply) (st : ColumnLoopState)
    (haveFunction : Bool) (hbegin : t.beginStatus = ExecStatus.commandOk)
    (hsize : t.sizeStatus.accepted = true)
    (hskip : ¬ (o.useMaxDumpSize = true ∧ t.tableSizeBytes > maxDumpSize))
    (hindex : t.indexesStatus.accepted = true) (hdata : t.dataStatus.accepted = true)
    (hcommit : t.commitStatus = ExecStatus.commandOk) (events : List Event) (have2 : Bool)
    (hrows : rowLoop (rowSets o st) t t.rowCount 0 haveFunction = (events, Except.ok have2)) :
    transferTable o t st haveFunction
      = ([Event.pgExec "BEGIN".toList, Event.pgExec (sizeQuery o.useSelectOnly t.tableName),
            Event.pgExec (indexesQuery t.tableName)] ++ indexEvents t
          ++ [Event.pgExec (selectQuery o.useSelectOnly t.tableName st.colNamesForPqSelect)]
          ++ events ++ [Event.pgExec "COMMIT".toList, Event.sqliteFinalize],
        Except.ok have2) := by
  unfold transferTable
  simp only [hbegin, ne_eq, not_true_eq_false, if_false, hsize, Bool.not_true,
    Bool.false_eq_true, hskip, hindex, hdata, hrows, hcommit]
  rfl

theorem probe_no_step (r : LOReply) (haveFunction : Bool) (oid : Int) :
    Event.sqliteStep ∉ (getLargeObjectSize_v2 r haveFunction oid).1 := by
  unfold getLargeObjectSize_v2
  split_ifs <;> simp

theorem cellBody_no_step (sets : ColumnSets) (t : TableReply) (i j : Nat)
    (haveFunction : Bool) : Event.sqliteStep ∉ (cellBody sets t i j haveFunction).1 := by
  by_cases hlo : j ∈ sets.largeObjectColumns
  · have hp := probe_no_step (t.lo i j) haveFunction (atoi (PQgetvalue (t.cell i j)))
    simp only [cellBody, hlo, if_true, largeObjectCell]
    split_ifs <;> simp only [] <;> (try split_ifs) <;> simp [hp]
  · rw [cellBody_plain _ _ _ _ _ hlo]
    obtain ⟨v, hv⟩ := plainCell_single sets.timeZoneColumns sets.timeStampColumns j (t.cell i j)
    rw [hv]; simp

theorem cellLoop_no_step (sets : ColumnSets) (t : TableReply) (i : Nat) :
    ∀ (remaining j : Nat) (haveFunction : Bool),
      Event.sqliteStep ∉ (cellLoop sets t i remaining j haveFunction).1 := by
  intro remaining
  induction remaining with
  | zero => intro j hf; simp [cellLoop]
  | succ n ih =>
    intro j hf
    have hb := cellBody_no_step sets t i j hf
    rcases hc : cellBody sets t i j hf with ⟨events, res⟩
    rw [hc] at hb
    cases res with
    | error code => simpa [cellLoop, hc] using hb
    | ok have2 =>
      simp only [cellLoop, hc, List.mem_append, not_or]
      exact ⟨hb, ih (j + 1) have2⟩

theorem rowBody_ok_shape (sets : ColumnSets) (t : TableReply) (i : Nat)
    (haveFunction have2 : Bool) (events : List Event)
    (h : rowBody sets t i haveFunction = (events, Except.ok have2)) :
    ∃ cells, Event.sqliteStep ∉ cells ∧ (∀ sql, Event.sqliteExec sql ∉ cells)
      ∧ events = cells ++ [Event.sqliteStep, Event.sqliteReset] ++ periodicCommit t.rowCount i := by
  have h1 := cellLoop_no_step sets t i t.colCount 0 haveFunction
  have h2 := fun sql => cellLoop_no_exec sets t i sql t.colCount 0 haveFunction
  unfold rowBody at h
  rcases hc : cellLoop sets t i t.colCount 0 haveFunction with ⟨cells, res⟩
  rw [hc] at h h1
  simp only [hc] at h2
  cases res with
  | error code => simp at h
  | ok have3 =>
    simp only [] at h
    split_ifs at h
    · simp at h
    · simp only [Prod.mk.injEq] at h
      exact ⟨cells, h1, h2, h.1.symm⟩

theorem rowLoop_ok (sets : ColumnSets) (t : TableReply) (hrows : rowsSucceed sets t) :
    ∀ (remaining i : Nat) (haveFunction : Bool), i + remaining ≤ t.rowCount →
      ∃ events have2, rowLoop sets t remaining i haveFunction = (events, Except.ok have2)
        ∧ countSteps events = remaining := by
  intro remaining
  induction remaining with
  | zero => intro i hf _; exact ⟨[], hf, rfl, rfl⟩
  | succ n ih =>
    intro i hf hle
    obtain ⟨events, have2, hbody⟩ := hrows i hf (by omega)
    obtain ⟨cells, hstep, _, hshape⟩ := rowBody_ok_shape sets t i hf have2 events hbody
    obtain ⟨rest, have3, hrest, hcount⟩ := ih (i + 1) have2 (by omega)
    refine ⟨events ++ rest, have3, ?_, ?_⟩
    · simp only [rowLoop, hbody, hrest]
    · have hpc : countSteps (periodicCommit t.rowCount i) = 0 := by
        unfold periodicCommit countSteps
        split_ifs <;> simp
      have hcells : countSteps cells = 0 := List.count_eq_zero.mpr hstep
      unfold countSteps at hcount hpc hcells ⊢
      rw [hshape, List.count_append, List.count_append, List.count_append, hcells, hpc, hcount]
      simp [List.count_cons]
      omega

theorem maxDumpSize_eq : maxDumpSize = 1073741824 := by decide

theorem indexesQuery_ne_commit (tableName : List Char) :
    indexesQuery tableName ≠ "COMMIT".toList := by
  intro h
  have h2 := congrArg List.head? h
  have h3 : (indexesQuery tableName).head? = some ' ' := rfl
  rw [h3] at h2
  exact absurd h2 (by decide)

theorem transferTable_select_issued (o : Options) (t : TableReply) (st : ColumnLoopState)
    (haveFunction : Bool) (hbegin : t.beginStatus = ExecStatus.commandOk)
    (hsize : t.sizeStatus.accepted = true)
    (hskip : ¬ (o.useMaxDumpSize = true ∧ t.tableSizeBytes > maxDumpSize))
    (hindex : t.indexesStatus.accepted = true) :
    Event.pgExec (selectQuery o.useSelectOnly t.tableName st.colNamesForPqSelect)
      ∈ (transferTable o t st haveFunction).1 := by
  unfold transferTable
  simp only [hbegin, ne_eq, not_true_eq_false, if_false, hsize, Bool.not_true,
    Bool.false_eq_true, hskip, hindex]
  rcases hr : rowLoop (rowSets o st) t t.rowCount 0 haveFunction with ⟨events, res⟩
  cases res with
  | error code => simp only []; split_ifs <;> simp
  | ok have2 => simp only []; split_ifs <;> simp

/-! ## Size guard: claim C12 -/

/-- C12: the ceiling is 1024*1024*1024 = 1073741824, none of the three
multiplications leaving the 64-bit range; a table that reaches the size test
is skipped (the calls made for it end with BEGIN, the size query and COMMIT on
the source) if and only if the ceiling policy is enabled and the reported
size is strictly greater than 1073741824; with the policy disabled, a table
whose queries are answered and whose rows all go through is streamed: its data
query is issued and the number of row inserts equals the number of rows the
data query returned. -/
theorem size_guard_threshold (o : Options) (t : TableReply) (haveFunction : Bool)
    (hreach : reachesSizeGuard o t) :
    (maxDumpSize = 1024 * 1024 * 1024 ∧ wrap64 (1 * 1024) = 1 * 1024
      ∧ wrap64 (1 * 1024 * 1024) = 1 * 1024 * 1024
      ∧ wrap64 (1 * 1024 * 1024 * 1024) = 1 * 1024 * 1024 * 1024)
    ∧ ((processTable o t haveFunction).1
          = [Event.pgExec (columnsQuery t.tableName)] ++ schemaEvents (mappedColumns o t)
            ++ [Event.pgExec "BEGIN".toList,
              Event.pgExec (sizeQuery o.useSelectOnly t.tableName),
              Event.pgExec "COMMIT".toList]
        ↔ (o.useMaxDumpSize = true ∧ t.tableSizeBytes > 1073741824))
    ∧ (o.useMaxDumpSize = false → t.indexesStatus.accepted = true →
        t.dataStatus.accepted = true → t.commitStatus = ExecStatus.commandOk →
        rowsSucceed (rowSets o (mappedColumns o t)) t →
        ∃ have2, (processTable o t haveFunction).2 = Except.ok have2
          ∧ Event.pgExec (selectQuery o.useSelectOnly t.tableName
              (mappedColumns o t).colNamesForPqSelect) ∈ (processTable o t haveFunction).1
          ∧ countSteps (processTable o t haveFunction).1 = t.rowCount) := by
  have hguard := processTable_at_guard o t haveFunction hreach
  obtain ⟨_, _, _, _, hbegin, hsize⟩ := hreach
  refine ⟨by decide, ?_, ?_⟩
  · rw [hguard, ← maxDumpSize_eq]
    constructor
    · intro heq
      by_contra hskip
      obtain ⟨rest, hrest⟩ := transferTable_noskip o t (mappedColumns o t) haveFunction hbegin
        hsize hskip
      simp only [hrest] at heq
      have h3 := List.append_cancel_left heq
      simp only [List.cons_append, List.nil_append, List.cons.injEq, Event.pgExec.injEq,
        true_and] at h3
      exact indexesQuery_ne_commit _ h3.1
    · intro hskip
      simp only [transferTable_skip o t (mappedColumns o t) haveFunction hbegin hsize hskip]
  · intro hpolicy hindex hdata hcommit hrows
    have hskip : ¬ (o.useMaxDumpSize = true ∧ t.tableSizeBytes > maxDumpSize) := by
      rw [hpolicy]; simp
    obtain ⟨events, have2, hloop, hcount⟩ :=
      rowLoop_ok (rowSets o (mappedColumns o t)) t hrows t.rowCount 0 haveFunction (by omega)
    have hstream := transferTable_stream o t (mappedColumns o t) haveFunction hbegin hsize
      hskip hindex hdata hcommit events have2 hloop
    refine ⟨have2, ?_, ?_, ?_⟩
    · rw [hguard, hstream]
    · rw [hguard]
      exact List.mem_append_right _
        (transferTable_select_issued o t _ haveFunction hbegin hsize hskip hindex)
    · rw [hguard, hstream]
      unfold countSteps at hcount ⊢
      simp only [List.count_append, hcount]
      have h1 : List.count Event.sqliteStep (schemaEvents (mappedColumns o t)) = 0 :=
        List.count_eq_zero.mpr (by simp [schemaEvents])
      have h2 : List.count Event.sqliteStep (indexEvents t) = 0 :=
        List.count_eq_zero.mpr (by simp [indexEvents])
      rw [h1, h2]
      simp [List.count_cons]

/-- C12, on the table `sampleHugeTable` of 5 GiB with the ceiling switched
off: it is streamed and its single row is inserted. -/
theorem size_guard_threshold_witness :
    ∃ have2, (processTable sampleUnlimitedOptions sampleHugeTable false).2 = Except.ok have2
      ∧ Event.pgExec (selectQuery sampleUnlimitedOptions.useSelectOnly sampleHugeTable.tableName
          (mappedColumns sampleUnlimitedOptions sampleHugeTable).colNamesForPqSelect)
        ∈ (processTable sampleUnlimitedOptions sampleHugeTable false).1
      ∧ countSteps (processTable sampleUnlimitedOptions sampleHugeTable false).1
        = sampleHugeTable.rowCount :=
  (size_guard_threshold sampleUnlimitedOptions sampleHugeTable false (by decide)).2.2
    rfl rfl rfl rfl (fun _ _ _ => ⟨_, _, rfl⟩)

/-! ## Child tables and select-only mode: claim C13 -/

theorem selectQuery_text (useSelectOnly : Bool) (tableName : List Char)
    (names : List (List Char)) :
    selectQuery useSelectOnly tableName names
      = "SELECT ".toList ++ ",".toList.intercalate names
        ++ (if useSelectOnly then " FROM  ONLY    ".toList else " FROM    ".toList)
        ++ tableName ++ ";".toList := by
  rw [selectQuery, joinProjection_eq]
  cases useSelectOnly <;> simp only [List.append_assoc, if_true, if_false, Bool.false_eq_true]
    <;> rfl

/-- C13: with select-only mode off, a table flagged as a child causes no call
at all, so no statement on the target, and the data query of a table that is
read has no ONLY; with select-only mode on, every table whose catalog query is
answered gets its CREATE TABLE statement, child or not, and the data query of
a table that is read says FROM ONLY. -/
theorem child_tables_and_select_only (o : Options) (t : TableReply) (haveFunction : Bool) :
    (o.useSelectOnly = false → atoi t.isChild = 1 →
      processTable o t haveFunction = ([], Except.ok haveFunction))
    ∧ (o.useSelectOnly = false → reachesSizeGuard o t →
        ¬ (o.useMaxDumpSize = true ∧ t.tableSizeBytes > 1073741824) →
        t.indexesStatus.accepted = true →
        Event.pgExec ("SELECT ".toList
            ++ ",".toList.intercalate (mappedColumns o t).colNamesForPqSelect
            ++ " FROM    ".toList ++ t.tableName ++ ";".toList)
          ∈ (processTable o t haveFunction).1)
    ∧ (o.useSelectOnly = true → t.columnsStatus.accepted = true →
        ¬ (t.columnsStatus = ExecStatus.tuplesOk ∧ t.columns ≠ [] ∧ t.columnsNFields ≠ 3) →
        Event.sqliteExec (createTableQuery (mappedColumns o t))
          ∈ (processTable o t haveFunction).1)
    ∧ (o.useSelectOnly = true → reachesSizeGuard o t →
        ¬ (o.useMaxDumpSize = true ∧ t.tableSizeBytes > 1073741824) →
        t.indexesStatus.accepted = true →
        Event.pgExec ("SELECT ".toList
            ++ ",".toList.intercalate (mappedColumns o t).colNamesForPqSelect
            ++ " FROM  ONLY    ".toList ++ t.tableName ++ ";".toList)
          ∈ (processTable o t haveFunction).1) := by
  have hread : ∀ (only : Bool), o.useSelectOnly = only → reachesSizeGuard o t →
      ¬ (o.useMaxDumpSize = true ∧ t.tableSizeBytes > 1073741824) →
      t.indexesStatus.accepted = true →
      Event.pgExec ("SELECT ".toList
          ++ ",".toList.intercalate (mappedColumns o t).colNamesForPqSelect
          ++ (if only then " FROM  ONLY    ".toList else " FROM    ".toList)
          ++ t.tableName ++ ";".toList) ∈ (processTable o t haveFunction).1 := by
    intro only hmode hreach hskip hindex
    rw [← maxDumpSize_eq] at hskip
    rw [processTable_at_guard o t haveFunction hreach, ← selectQuery_text, ← hmode]
    exact List.mem_append_right _
      (transferTable_select_issued o t _ haveFunction hreach.2.2.2.2.1 hreach.2.2.2.2.2 hskip
        hindex)
  refine ⟨?_, ?_, ?_, ?_⟩
  · intro hmode hchild
    exact processTable_child_skipped o t haveFunction hchild hmode
  · intro hmode hreach hskip hindex
    exact hread false hmode hreach hskip hindex
  · intro hmode hcols hshape
    obtain ⟨rest, hrest⟩ := processTable_schema o t haveFunction
      (by rw [hmode]; simp) hcols hshape
    rw [hrest]
    simp [schemaEvents]
  · intro hmode hreach hskip hindex
    exact hread true hmode hreach hskip hindex

/-- C13, on the child table `sampleChildTable`: nothing is done for it with
select-only mode off; with select-only mode on it gets its CREATE TABLE and is
read with FROM ONLY. -/
theorem child_tables_and_select_only_witness :
    processTable sampleOptions sampleChildTable false = ([], Except.ok false)
    ∧ Event.sqliteExec "CREATE TABLE t (c text);".toList
      ∈ (processTable sampleSelectOnlyOptions sampleChildTable false).1
    ∧ Event.pgExec "SELECT c FROM  ONLY    t;".toList
      ∈ (processTable sampleSelectOnlyOptions sampleChildTable false).1 :=
  ⟨(child_tables_and_select_only sampleOptions sampleChildTable false).1 rfl (by decide),
    (child_tables_and_select_only sampleSelectOnlyOptions sampleChildTable false).2.2.1
      rfl rfl (by decide),
    (child_tables_and_select_only sampleSelectOnlyOptions sampleChildTable false).2.2.2
      rfl (by decide) (by decide) rfl⟩

/-! ## Lemmas on the periodic commit -/

theorem stepsBetweenCommits_neutral (a b : List Event) (hstep : Event.sqliteStep ∉ a)
    (hexec : ∀ sql, Event.sqliteExec sql ∉ a) (cur : Nat) :
    stepsBetweenCommits cur (a ++ b) = stepsBetweenCommits cur b := by
  induction a with
  | nil => rfl
  | cons e es ih =>
    have h1 : Event.sqliteStep ∉ es := fun h => hstep (List.mem_cons_of_mem _ h)
    have h2 : ∀ sql, Event.sqliteExec sql ∉ es := fun sql h =>
      hexec sql (List.mem_cons_of_mem _ h)
    cases e with
    | sqliteStep => exact absurd (List.mem_cons_self _ _) hstep
    | sqliteExec sql => exact absurd (List.mem_cons_self _ _) (hexec sql)
    | sqlitePrepare sql => simpa only [List.cons_append, stepsBetweenCommits] using ih h1 h2
    | sqliteBind idx v => simpa only [List.cons_append, stepsBetweenCommits] using ih h1 h2
    | sqliteReset => simpa only [List.cons_append, stepsBetweenCommits] using ih h1 h2
    | sqliteFinalize => simpa only [List.cons_append, stepsBetweenCommits] using ih h1 h2
    | pgExec sql => simpa only [List.cons_append, stepsBetweenCommits] using ih h1 h2
    | allocBuffer len => simpa only [List.cons_append, stepsBetweenCommits] using ih h1 h2
    | loOpen oid => simpa only [List.cons_append, stepsBetweenCommits] using ih h1 h2
    | loRead len => simpa only [List.cons_append, stepsBetweenCommits] using ih h1 h2
    | loClose => simpa only [List.cons_append, stepsBetweenCommits] using ih h1 h2

theorem stepsBetweenCommits_row (cur : Nat) (rest : List Event) :
    stepsBetweenCommits cur ([Event.sqliteStep, Event.sqliteReset] ++ rest)
      = stepsBetweenCommits (cur + 1) rest := by
  simp only [List.cons_append, List.nil_append, stepsBetweenCommits]
  rfl

theorem stepsBetweenCommits_commit (cur : Nat) (rest : List Event) :
    stepsBetweenCommits cur ([Event.sqliteExec "END TRANSACTION;".toList,
        Event.sqliteExec "BEGIN TRANSACTION;".toList] ++ rest)
      = cur :: stepsBetweenCommits 0 rest := by
  have hne : ¬ "BEGIN TRANSACTION;".toList = "END TRANSACTION;".toList := by decide
  simp only [List.cons_append, List.nil_append, stepsBetweenCommits, if_true, hne, if_false]
  rfl

theorem periodicCommit_big (rowCount i : Nat) (hbig : rowCount > 100000) :
    periodicCommit rowCount i
      = if i % 100000 = 0 then
          [Event.sqliteExec "END TRANSACTION;".toList,
            Event.sqliteExec "BEGIN TRANSACTION;".toList]
        else [] := by
  unfold periodicCommit
  by_cases h : i % 100000 = 0
  · simp only [h, if_true]
    have : (decide (rowCount > 100000) && (0 == 0)) = true := by simp [hbig]
    rw [if_pos this]
  · simp only [h, if_false]
    have : ¬ ((decide (rowCount > 100000) && (i % 100000 == 0)) = true) := by simp [h]
    rw [if_neg this]

theorem periodicCommit_small (rowCount i : Nat) (hsmall : rowCount ≤ 100000) :
    periodicCommit rowCount i = [] := by
  unfold periodicCommit
  have : ¬ ((decide (rowCount > 100000) && (i % 100000 == 0)) = true) := by
    simp only [Bool.and_eq_true, decide_eq_true_eq, not_and]
    intro h; omega
  rw [if_neg this]

theorem rowLoop_stretches (sets : ColumnSets) (t : TableReply) (hrows : rowsSucceed sets t)
    (hbig : t.rowCount > 100000) :
    ∀ (remaining i cur : Nat) (haveFunction : Bool), i + remaining ≤ t.rowCount →
      cur < 100000 → cur < i → (i - 1 - cur) % 100000 = 0 →
      stepsBetweenCommits cur (rowLoop sets t remaining i haveFunction).1
        = List.replicate ((cur + remaining) / 100000) 100000
          ++ [(cur + remaining) % 100000] := by
  intro remaining
  induction remaining with
  | zero =>
    intro i cur hf _ hcur _ _
    simp only [rowLoop, stepsBetweenCommits, Nat.add_zero, Nat.div_eq_of_lt hcur,
      Nat.mod_eq_of_lt hcur, List.replicate_zero, List.nil_append]
  | succ r ih =>
    intro i cur hf hle hcur hlt hinv
    obtain ⟨events, have2, hbody⟩ := hrows i hf (by omega)
    obtain ⟨cells, hstep, hexec, hshape⟩ := rowBody_ok_shape sets t i hf have2 events hbody
    have htrace : (rowLoop sets t (r + 1) i hf).1
        = cells ++ ([Event.sqliteStep, Event.sqliteReset]
          ++ (periodicCommit t.rowCount i ++ (rowLoop sets t r (i + 1) have2).1)) := by
      simp only [rowLoop, hbody, hshape, List.append_assoc]
    rw [htrace, stepsBetweenCommits_neutral _ _ hstep hexec, stepsBetweenCommits_row,
      periodicCommit_big _ _ hbig]
    by_cases hi : i % 100000 = 0
    · have hfull : cur + 1 = 100000 := by omega
      rw [if_pos hi, stepsBetweenCommits_commit, ih (i + 1) 0 have2 (by omega) (by omega)
        (by omega) (by omega), hfull]
      have h1 : (cur + (r + 1)) / 100000 = (0 + r) / 100000 + 1 := by omega
      have h2 : (cur + (r + 1)) % 100000 = (0 + r) % 100000 := by omega
      rw [h1, h2, List.replicate_succ, List.cons_append]
    · have hroom : cur + 1 < 100000 := by omega
      rw [if_neg hi, List.nil_append,
        ih (i + 1) (cur + 1) have2 (by omega) hroom (by omega) (by omega)]
      have h1 : cur + 1 + r = cur + (r + 1) := by omega
      rw [h1]

/-! ## Rows per target transaction: claim C18 -/

/-- C18: in the row loop of a table with more than 100000 rows, all of which
go through, the stretches between the END TRANSACTION statements hold 1 row
before the first commit, exactly 100000 rows between two consecutive commits,
and fewer than 100000 rows after the last commit; no stretch holds more than
100000 rows of the table. -/
theorem rows_between_commits (sets : ColumnSets) (t : TableReply) (haveFunction : Bool)
    (hbig : t.rowCount > 100000) (hrows : rowsSucceed sets t) :
    stepsBetweenCommits 0 (rowLoop sets t t.rowCount 0 haveFunction).1
      = 1 :: (List.replicate ((t.rowCount - 1) / 100000) 100000
        ++ [(t.rowCount - 1) % 100000])
    ∧ (t.rowCount - 1) % 100000 < 100000
    ∧ ∀ n ∈ stepsBetweenCommits 0 (rowLoop sets t t.rowCount 0 haveFunction).1,
        n ≤ 100000 := by
  have hlast : (t.rowCount - 1) % 100000 < 100000 := Nat.mod_lt _ (by decide)
  have hmain : stepsBetweenCommits 0 (rowLoop sets t t.rowCount 0 haveFunction).1
      = 1 :: (List.replicate ((t.rowCount - 1) / 100000) 100000
        ++ [(t.rowCount - 1) % 100000]) := by
    obtain ⟨r, hr⟩ : ∃ r, t.rowCount = r + 1 := ⟨t.rowCount - 1, by omega⟩
    obtain ⟨events, have2, hbody⟩ := hrows 0 haveFunction (by omega)
    obtain ⟨cells, hstep, hexec, hshape⟩ :=
      rowBody_ok_shape sets t 0 haveFunction have2 events hbody
    have htrace : (rowLoop sets t (r + 1) 0 haveFunction).1
        = cells ++ ([Event.sqliteStep, Event.sqliteReset]
          ++ (periodicCommit t.rowCount 0 ++ (rowLoop sets t r (0 + 1) have2).1)) := by
      simp only [rowLoop, hbody, hshape, List.append_assoc]
    have hstretch := rowLoop_stretches sets t hrows hbig r 1 0 have2 (by omega) (by decide)
      (by decide) (by decide)
    rw [hr, htrace, stepsBetweenCommits_neutral _ _ hstep hexec, stepsBetweenCommits_row,
      periodicCommit_big _ _ hbig, if_pos (by decide), stepsBetweenCommits_commit, hstretch]
    simp
  refine ⟨hmain, hlast, ?_⟩
  intro n hn
  rw [hmain] at hn
  simp only [List.mem_cons, List.mem_append, List.mem_replicate, List.mem_singleton,
    List.not_mem_nil, or_false] at hn
  rcases hn with h | ⟨_, h⟩ | h <;> omega

/-- C18, on the table `sampleBigTable` of 200000 rows: 1 row before the first
commit, 100000 rows up to the second commit, 99999 rows after it. -/
theorem rows_between_commits_witness :
    stepsBetweenCommits 0
        (rowLoop (rowSets sampleOptions (mappedColumns sampleOptions sampleBigTable))
          sampleBigTable sampleBigTable.rowCount 0 false).1
      = [1, 100000, 99999] :=
  (rows_between_commits (rowSets sampleOptions (mappedColumns sampleOptions sampleBigTable))
    sampleBigTable false (by decide) (fun _ _ _ => ⟨_, _, rfl⟩)).1

/-! ## Lemmas on the C integer conversions and on a failed allocation -/

theorem atoi_above_int_max :
    atoi "3000000000".toList = -1294967296
    ∧ toOid (atoi "3000000000".toList) = 3000000000
    ∧ probeQuery (atoi "3000000000".toList) = "SELECT get_lo_size(-1294967296);".toList := by
  decide

theorem failed_probe_run_aborts :
    (main sampleUnlimitedOptions
        (sampleRun [sampleLargeObjectTable sampleFailedProbe 0 101])).2 = ABORTED
    ∧ countSteps (main sampleUnlimitedOptions
        (sampleRun [sampleLargeObjectTable sampleFailedProbe 0 101])).1 = 0
    ∧ (main sampleUnlimitedOptions
        (sampleRun [sampleLargeObjectTable sampleFailedProbe 0 101])).1.getLast?
      = some (Event.allocBuffer 18446744073709551615) := by
  decide

theorem failed_probe_rows_do_not_succeed :
    ¬ rowsSucceed
      (rowSets sampleUnlimitedOptions
        (mappedColumns sampleUnlimitedOptions (sampleLargeObjectTable sampleFailedProbe 0 101)))
      (sampleLargeObjectTable sampleFailedProbe 0 101) := by
  intro h
  obtain ⟨events, have2, hbody⟩ := h 0 false (by decide)
  have habort : (rowBody
      (rowSets sampleUnlimitedOptions
        (mappedColumns sampleUnlimitedOptions (sampleLargeObjectTable sampleFailedProbe 0 101)))
      (sampleLargeObjectTable sampleFailedProbe 0 101) 0 false).2 = Except.error ABORTED := rfl
  rw [hbody] at habort
  cases habort

end PgToSqlite
